import Mathlib

/-
  Verification of the PTCP implementation (vertex: src/vertex/ptcp.py and
  src/vertex/tcpdfa.py) against its natural-language specification.

  The development is a shallow embedding: the packet codec, the RFC-793-style
  state machine, the per-connection engine and the UDP multiplexer are
  translated into executable Lean definitions, and the specification's claims
  are settled as theorems about those definitions.

  Conventions of the embedding:
  * Python byte strings are `List Nat` with entries below 256.
  * Python (unbounded) integers are `Int`; wire fields are `Nat`.
  * `struct.pack`/`struct.unpack` range failures, assertion failures, raised
    exceptions and non-terminating loops are represented by `Option`/error
    results; mutations performed before a raise are retained, as in Python.
-/

namespace PTCPModel

/-- A UDP (host, port) address tuple. -/
abbrev Addr := String × Nat

/-! ## CRC-32 (binascii.crc32)

`ptcp.py` uses `binascii.crc32` over the payload.  This is the standard
reflected CRC-32 with polynomial 0xEDB88320, initial value 0xFFFFFFFF and
final complement; Python 2's `binascii.crc32` returns the result as a
*signed* 32-bit integer. -/

/-- One bit step of the reflected CRC-32. -/
def crc32Bit (c : Nat) : Nat :=
  if c % 2 = 1 then (c / 2) ^^^ 0xEDB88320 else c / 2

/-- Absorb one byte into the CRC accumulator (8 bit steps). -/
def crc32Byte (c b : Nat) : Nat :=
  crc32Bit (crc32Bit (crc32Bit (crc32Bit (crc32Bit (crc32Bit (crc32Bit (crc32Bit (c ^^^ b))))))))

/-- Unsigned CRC-32 of a byte string. -/
def crc32u (data : List Nat) : Nat :=
  (data.foldl crc32Byte 0xFFFFFFFF) ^^^ 0xFFFFFFFF

/-- Reinterpret a value below 2^32 as a signed 32-bit integer. -/
def toSigned32 (n : Nat) : Int :=
  if n < 2 ^ 31 then (n : Int) else (n : Int) - 2 ^ 32

/-- `binascii.crc32`: signed 32-bit CRC-32 of a byte string. -/
def crc32 (data : List Nat) : Int := toSigned32 (crc32u data)

/-! ## struct serialization helpers

The packet format string is `'!HHLLLBlH'` (network byte order, standard
sizes): u16, u16, u32, u32, u32, u8, signed 32, u16. -/

/-- Big-endian 2-byte encoding of a u16 value. -/
def u16be (n : Nat) : List Nat := [n / 2 ^ 8 % 2 ^ 8, n % 2 ^ 8]

/-- Big-endian 4-byte encoding of a u32 value. -/
def u32be (n : Nat) : List Nat :=
  [n / 2 ^ 24 % 2 ^ 8, n / 2 ^ 16 % 2 ^ 8, n / 2 ^ 8 % 2 ^ 8, n % 2 ^ 8]

/-- Big-endian 4-byte two's-complement encoding of a signed 32-bit value. -/
def i32be (i : Int) : List Nat := u32be ((i % 2 ^ 32).toNat)

/-- `struct.pack` range check for format `H`. -/
def inU16 (n : Nat) : Bool := n < 2 ^ 16

/-- `struct.pack` range check for format `L`. -/
def inU32 (n : Nat) : Bool := n < 2 ^ 32

/-- `struct.pack` range check for format `B`. -/
def inU8 (n : Nat) : Bool := n < 2 ^ 8

/-- `struct.pack` range check for format `l`. -/
def inI32 (i : Int) : Bool := -(2 ^ 31) ≤ i && i < 2 ^ 31

/-- The field widths of `_packetFormat = '!HHLLLBlH'`. -/
def packetFormatSizes : List Nat := [2, 2, 4, 4, 4, 1, 4, 2]

/-- `_fixedSize = struct.calcsize(_packetFormat)`. -/
def fixedSize : Nat := packetFormatSizes.sum

/-! ## relativeSequence -/

/-- `relativeSequence(wireSequence, initialSequence, lapNumber)`:
`(wireSequence + lapNumber * 2**32) - initialSequence` as a Python integer. -/
def relativeSequence (wireSequence initialSequence lapNumber : Nat) : Int :=
  ((wireSequence : Int) + (lapNumber : Int) * 2 ^ 32) - (initialSequence : Int)

/-! ## PTCPPacket -/

/-- The in-memory packet record of `PTCPPacket.__init__`, together with the
class attribute `retransmitCount = 50` and the `destination` attribute set by
`PTCPPacket.create` (absent, i.e. `none`, on decoded packets). -/
structure PTCPPacket where
  sourcePseudoPort : Nat
  destPseudoPort : Nat
  seqNum : Nat
  ackNum : Nat
  window : Nat
  flags : Nat
  checksum : Int
  dlen : Nat
  data : List Nat
  peerAddressTuple : Option Addr := none
  seqOffset : Nat := 0
  ackOffset : Nat := 0
  seqLaps : Nat := 0
  ackLaps : Nat := 0
  destination : Option Addr := none
  retransmitCount : Int := 50
  deriving DecidableEq

/-- Flag bit `_SYN = 1`. -/
def PTCPPacket.syn (p : PTCPPacket) : Bool := p.flags &&& 1 != 0

/-- Flag bit `_ACK = 2`. -/
def PTCPPacket.ack (p : PTCPPacket) : Bool := p.flags &&& 2 != 0

/-- Flag bit `_FIN = 4`. -/
def PTCPPacket.fin (p : PTCPPacket) : Bool := p.flags &&& 4 != 0

/-- Flag bit `_RST = 8`. -/
def PTCPPacket.rst (p : PTCPPacket) : Bool := p.flags &&& 8 != 0

/-- Flag bit `_STB = 16`. -/
def PTCPPacket.stb (p : PTCPPacket) : Bool := p.flags &&& 16 != 0

/-- The flags byte produced by `PTCPPacket.create`, which starts from 0 and
applies the five `_flagprop` setters. -/
def flagsOf (syn ack fin rst stb : Bool) : Nat :=
  (if syn then 1 else 0) ||| (if ack then 2 else 0) ||| (if fin then 4 else 0) |||
    (if rst then 8 else 0) ||| (if stb then 16 else 0)

/-- `PTCPPacket.computeChecksum`: CRC-32 of the payload. -/
def PTCPPacket.computeChecksum (p : PTCPPacket) : Int := crc32 p.data

/-- `PTCPPacket.create`: build a packet, with `dlen = len(data)` and the
checksum recomputed from the data. -/
def PTCPPacket.create (sourcePseudoPort destPseudoPort seqNum ackNum : Nat)
    (data : List Nat) (window : Nat) (syn ack fin rst stb : Bool)
    (destination : Option Addr) : PTCPPacket :=
  { sourcePseudoPort := sourcePseudoPort
    destPseudoPort := destPseudoPort
    seqNum := seqNum
    ackNum := ackNum
    window := window
    flags := flagsOf syn ack fin rst stb
    checksum := crc32 data
    dlen := data.length
    data := data
    destination := destination }

/-- `PTCPPacket.segmentLength`: `dlen + syn + fin` (RFC 793 page 26; Python
booleans count as 0/1). -/
def PTCPPacket.segmentLength (p : PTCPPacket) : Nat :=
  p.dlen + (if p.syn then 1 else 0) + (if p.fin then 1 else 0)

/-- `PTCPPacket.relativeSeq`. -/
def PTCPPacket.relativeSeq (p : PTCPPacket) : Int :=
  relativeSequence p.seqNum p.seqOffset p.seqLaps

/-- `PTCPPacket.relativeAck`. -/
def PTCPPacket.relativeAck (p : PTCPPacket) : Int :=
  relativeSequence p.ackNum p.ackOffset p.ackLaps

/-- The three failures `PTCPPacket.verifyChecksum` can raise, plus
`BadPacketError` raised by `PTCPConnection.packetReceived`. -/
inductive PacketError
  | truncatedData
  | garbageData
  | checksumMismatch
  deriving DecidableEq

/-- `PTCPPacket.verifyChecksum`: `none` on success, otherwise the raised
error (`GarbageDataError` when too much data, `TruncatedDataError` when too
little, `ChecksumMismatchError` when lengths agree but the CRC differs). -/
def PTCPPacket.verifyChecksum (p : PTCPPacket) : Option PacketError :=
  if p.data.length ≠ p.dlen then
    if p.data.length > p.dlen then some .garbageData else some .truncatedData
  else if p.computeChecksum ≠ p.checksum then some .checksumMismatch
  else none

/-- `PTCPPacket.mustRetransmit`: true iff the packet carries SYN, FIN or
payload. -/
def PTCPPacket.mustRetransmit (p : PTCPPacket) : Bool :=
  p.syn || p.fin || p.dlen != 0

/-- `PTCPPacket.encode`: recompute `dlen = len(data)` and the CRC-32 of the
data (ignoring the stored `dlen` and `checksum` fields), then pack the
19-field header followed by the payload.  `none` models a `struct.error`
raised when a field is out of range for its format character. -/
def PTCPPacket.encode (p : PTCPPacket) : Option (List Nat) :=
  let dlen := p.data.length
  let checksum := crc32 p.data
  if inU16 p.sourcePseudoPort && inU16 p.destPseudoPort && inU32 p.seqNum &&
      inU32 p.ackNum && inU32 p.window && inU8 p.flags && inI32 checksum &&
      inU16 dlen then
    some (u16be p.sourcePseudoPort ++ u16be p.destPseudoPort ++ u32be p.seqNum ++
      u32be p.ackNum ++ u32be p.window ++ [p.flags] ++ i32be checksum ++
      u16be dlen ++ p.data)
  else none

/-- `PTCPPacket.decode(bytes, hostPortPair)`: unpack the fixed-size header and
take the remainder as data.  `none` models the `struct.error` raised when
fewer than `_fixedSize` bytes are available.  All non-wire fields take their
constructor defaults (in particular the lap/offset bookkeeping is zero and
`retransmitCount` is the class value 50). -/
def PTCPPacket.decode (bytes : List Nat) (hostPortPair : Option Addr) :
    Option PTCPPacket :=
  match bytes with
  | b0 :: b1 :: b2 :: b3 :: b4 :: b5 :: b6 :: b7 :: b8 :: b9 :: b10 :: b11 ::
      b12 :: b13 :: b14 :: b15 :: b16 :: b17 :: b18 :: b19 :: b20 :: b21 ::
      b22 :: rest =>
    some
      { sourcePseudoPort := b0 * 2 ^ 8 + b1
        destPseudoPort := b2 * 2 ^ 8 + b3
        seqNum := b4 * 2 ^ 24 + b5 * 2 ^ 16 + b6 * 2 ^ 8 + b7
        ackNum := b8 * 2 ^ 24 + b9 * 2 ^ 16 + b10 * 2 ^ 8 + b11
        window := b12 * 2 ^ 24 + b13 * 2 ^ 16 + b14 * 2 ^ 8 + b15
        flags := b16
        checksum := toSigned32 (b17 * 2 ^ 24 + b18 * 2 ^ 16 + b19 * 2 ^ 8 + b20)
        dlen := b21 * 2 ^ 8 + b22
        data := rest
        peerAddressTuple := hostPortPair }
  | _ => none

/-! ## iterchunks and fragment -/

/-- The chunk list produced by `iterchunks(data, chunksize)` for a positive
chunk size. -/
def chunksPos (data : List Nat) (chunksize : Nat) : List (List Nat) :=
  if _h : data = [] ∨ chunksize = 0 then []
  else data.take chunksize :: chunksPos (data.drop chunksize) chunksize
termination_by data.length
decreasing_by
  simp only [not_or] at _h
  have hd : data.length ≠ 0 := by
    simpa [List.length_eq_zero] using _h.1
  have hc : 0 < chunksize := Nat.pos_of_ne_zero _h.2
  simp only [List.length_drop]
  omega

/-- `iterchunks(data, chunksize)`: `none` models the non-terminating loop the
generator produces when `chunksize = 0` and there is data. -/
def iterchunks (data : List Nat) (chunksize : Nat) : Option (List (List Nat)) :=
  if chunksize = 0 then (if data = [] then some [] else none)
  else some (chunksPos data chunksize)

/-- The loop body of `PTCPPacket.fragment`: children created from successive
chunks with cumulatively offset sequence numbers, the ack flag propagated,
and the checksum/dlen recomputed by `create`. -/
def PTCPPacket.fragmentChildren (p : PTCPPacket) (chunks : List (List Nat))
    (seqOfft : Nat) : List PTCPPacket :=
  match chunks with
  | [] => []
  | chunk :: rest =>
    PTCPPacket.create p.sourcePseudoPort p.destPseudoPort (p.seqNum + seqOfft)
        p.ackNum chunk p.window false p.ack false false false p.destination ::
      p.fragmentChildren rest (seqOfft + chunk.length)

/-- The tail of `fragment`: set the FIN flag on the last child and recompute
its checksum (`last.fin = self.fin; last.checksum = last.computeChecksum()`). -/
def setFinTrue (q : PTCPPacket) : PTCPPacket :=
  { q with flags := q.flags ||| 4, checksum := crc32 q.data }

/-- `PTCPPacket.fragment(mtu)`.  `none` models the `assert not self.syn`
failure, the infinite `iterchunks` loop on a zero mtu, and the `NameError`
reached when the chunk loop never ran (`last` unbound) but `self.fin` is
set. -/
def PTCPPacket.fragment (p : PTCPPacket) (mtu : Nat) : Option (List PTCPPacket) :=
  if p.dlen < mtu then some [p]
  else if p.syn then none
  else
    match iterchunks p.data mtu with
    | none => none
    | some chunks =>
      let L := p.fragmentChildren chunks 0
      if p.fin then
        match L.getLast? with
        | none => none
        | some lastP => some (L.dropLast ++ [setFinTrue lastP])
      else some L

/-! ## Acceptability predicates -/

/-- `segmentAcceptable(RCV_NXT, RCV_WND, SEG_SEQ, SEG_LEN)`: RFC 793 page 26.
(The final `assert 0` branch of the source is unreachable for the
nonnegative arguments the connection passes; it is rendered as `false`.) -/
def segmentAcceptable (RCV_NXT RCV_WND SEG_SEQ SEG_LEN : Int) : Bool :=
  if SEG_LEN = 0 ∧ RCV_WND = 0 then SEG_SEQ = RCV_NXT
  else if SEG_LEN = 0 ∧ RCV_WND > 0 then
    RCV_NXT ≤ SEG_SEQ ∧ SEG_SEQ < RCV_NXT + RCV_WND
  else if SEG_LEN > 0 ∧ RCV_WND = 0 then false
  else if SEG_LEN > 0 ∧ RCV_WND > 0 then
    (RCV_NXT ≤ SEG_SEQ ∧ SEG_SEQ < RCV_NXT + RCV_WND) ∨
      (RCV_NXT ≤ SEG_SEQ + SEG_LEN - 1 ∧ SEG_SEQ + SEG_LEN - 1 < RCV_NXT + RCV_WND)
  else false

/-- `ackAcceptable(SND_UNA, SEG_ACK, SND_NXT)`: RFC 793 page 25,
`SND_UNA < SEG_ACK <= SND_NXT`. -/
def ackAcceptable (SND_UNA SEG_ACK SND_NXT : Int) : Bool :=
  SND_UNA < SEG_ACK ∧ SEG_ACK ≤ SND_NXT

/-! ## The TCP state machine (tcpdfa.py) -/

/-- The states declared on `TCP` via `@_machine.state()`; `broken` is an
alias for `closed`. -/
inductive TCPState
  | closed
  | synSent
  | synRcvd
  | listen
  | established
  | closeWait
  | lastAck
  | finWait1
  | finWait2
  | closing
  | timeWait
  deriving DecidableEq

/-- The inputs declared on `TCP` via `@_machine.input()`. -/
inductive TCPInput
  | appPassiveOpen
  | appActiveOpen
  | timeout
  | appClose
  | synAck
  | ack
  | rst
  | appSendData
  | syn
  | fin
  | segmentReceived
  deriving DecidableEq

/-- The outputs declared on `TCP` via `@_machine.output()`. -/
inductive TCPOutput
  | sendSyn
  | sendFin
  | sendSynAck
  | sendAck
  | sendRst
  | appNotifyConnected
  | appNotifyDisconnected
  | releaseResources
  | startTimeWaiting
  | appNotifyListen
  | appNotifyHalfClose
  | appNotifyAttemptFailed
  deriving DecidableEq

open TCPState TCPInput TCPOutput in
/-- The transition table of tcpdfa.py (`state.upon(input, enter=..,
outputs=[..])`), with `broken = closed`.  `none` is automat's `NoTransition`
error for an input the current state does not consume. -/
def tcpTransition : TCPState → TCPInput → Option (TCPState × List TCPOutput)
  | closed, appPassiveOpen => some (TCPState.listen, [appNotifyListen])
  | closed, appActiveOpen => some (synSent, [sendSyn])
  | synSent, timeout => some (closed, [appNotifyAttemptFailed, releaseResources])
  | synSent, appClose => some (closed, [appNotifyAttemptFailed, releaseResources])
  | synSent, TCPInput.synAck => some (established, [sendAck, appNotifyConnected])
  | synRcvd, TCPInput.ack => some (established, [appNotifyConnected])
  | synRcvd, appClose => some (finWait1, [sendFin])
  | synRcvd, timeout => some (closed, [sendRst, releaseResources])
  | synRcvd, TCPInput.rst => some (closed, [releaseResources])
  | TCPState.listen, appSendData => some (synSent, [sendSyn])
  | TCPState.listen, TCPInput.syn => some (synRcvd, [sendSynAck])
  | established, TCPInput.segmentReceived => some (established, [sendAck])
  | established, appClose => some (finWait1, [appNotifyDisconnected, sendFin])
  | established, TCPInput.fin => some (closeWait, [appNotifyHalfClose, sendAck])
  | established, timeout => some (closed, [appNotifyDisconnected, releaseResources])
  | closeWait, appClose => some (lastAck, [sendFin, appNotifyDisconnected])
  | closeWait, timeout => some (closed, [appNotifyDisconnected, releaseResources])
  | lastAck, TCPInput.ack => some (closed, [releaseResources])
  | lastAck, timeout => some (closed, [releaseResources])
  | finWait1, TCPInput.ack => some (finWait2, [])
  | finWait1, TCPInput.fin => some (closing, [sendAck])
  | finWait1, timeout => some (closed, [releaseResources])
  | finWait2, timeout => some (closed, [releaseResources])
  | finWait2, TCPInput.fin => some (timeWait, [sendAck, startTimeWaiting])
  | closing, timeout => some (closed, [releaseResources])
  | closing, TCPInput.ack => some (timeWait, [startTimeWaiting])
  | timeWait, timeout => some (closed, [releaseResources])
  | finWait1, TCPInput.segmentReceived => some (finWait1, [])
  | finWait2, TCPInput.segmentReceived => some (finWait2, [])
  | closing, TCPInput.segmentReceived => some (closing, [])
  | _, _ => none

/-- The attribute names that `tcpdfa.TCP` declares as machine inputs
(`@_machine.input()`), i.e. the callable inputs of the state machine. -/
def tcpInputNames : List String :=
  ["appPassiveOpen", "appActiveOpen", "timeout", "appClose", "synAck", "ack",
   "rst", "appSendData", "syn", "fin", "segmentReceived"]

/-- Every attribute name defined on the `TCP` class in tcpdfa.py: states,
inputs, outputs, the machine itself, and the constructor's `_impl` slot. -/
def tcpAttributeNames : List String :=
  ["_machine", "_impl",
   "closed", "broken", "synSent", "synRcvd", "listen", "established",
   "closeWait", "lastAck", "finWait1", "finWait2", "closing", "timeWait",
   "appPassiveOpen", "appActiveOpen", "timeout", "appClose", "synAck", "ack",
   "rst", "appSendData", "syn", "fin", "segmentReceived",
   "sendSyn", "sendFin", "sendSynAck", "sendAck", "sendRst",
   "appNotifyConnected", "appNotifyDisconnected", "releaseResources",
   "startTimeWaiting", "appNotifyListen", "appNotifyHalfClose",
   "appNotifyAttemptFailed"]

/-- The method name `PTCPConnection.packetReceived` invokes on the machine
for an acceptable ACK: `self.machine.maybeReceiveAck(packet)` (ptcp.py
line 433). -/
def ackDispatchAttributeName : String := "maybeReceiveAck"

/-! ## PTCPConnection -/

/-- The per-connection state of `PTCPConnection`: instance attributes from
`__init__` plus the class attributes it may shadow (`mtu`, window sizes,
flags) and one boolean per timer (`_nagle`, `_retransmitter`, `_ackTimer`,
`_timeWaitCall`, `_closeWaitLoseConnection`).  The protocol and producer
collaborators are tracked as presence booleans. -/
structure PTCPConnection where
  hostPseudoPort : Nat
  peerPseudoPort : Nat
  peerAddressTuple : Option Addr
  retransmissionQueue : List PTCPPacket
  oldestUnackedSendSeqNum : Int
  nextSendSeqNum : Int
  hostSendISN : Nat
  nextRecvSeqNum : Int
  peerSendISN : Nat
  setPeerISN : Bool
  machine : TCPState
  mtu : Nat
  recvWindow : Nat
  sendWindow : Nat
  sendWindowRemaining : Int
  outgoingBytes : List Nat
  paused : Bool
  disconnecting : Bool
  disconnected : Bool
  wasEverListen : Bool
  protocol : Bool
  producer : Bool
  producerPaused : Bool
  streamingProducer : Bool
  nagleArmed : Bool
  retransmitArmed : Bool
  ackTimerArmed : Bool
  timeWaitArmed : Bool
  closeWaitLoseArmed : Bool
  deriving DecidableEq

/-- `PTCPConnection.__init__`: a fresh connection.  `mtu = 512 - _fixedSize`,
`recvWindow = sendWindow = mtu`, `sendWindowRemaining = mtu * 2`, the machine
initial state is `closed`. -/
def PTCPConnection.new (hostPseudoPort peerPseudoPort : Nat)
    (peerAddressTuple : Option Addr) : PTCPConnection :=
  { hostPseudoPort := hostPseudoPort
    peerPseudoPort := peerPseudoPort
    peerAddressTuple := peerAddressTuple
    retransmissionQueue := []
    oldestUnackedSendSeqNum := 0
    nextSendSeqNum := 0
    hostSendISN := 0
    nextRecvSeqNum := 0
    peerSendISN := 0
    setPeerISN := false
    machine := .closed
    mtu := 512 - fixedSize
    recvWindow := 512 - fixedSize
    sendWindow := 512 - fixedSize
    sendWindowRemaining := (512 - fixedSize) * 2
    outgoingBytes := []
    paused := false
    disconnecting := false
    disconnected := false
    wasEverListen := false
    protocol := false
    producer := false
    producerPaused := false
    streamingProducer := false
    nagleArmed := false
    retransmitArmed := false
    ackTimerArmed := false
    timeWaitArmed := false
    closeWaitLoseArmed := false }

/-- Python exceptions and failure modes of the connection engine. -/
inductive PErr
  | badPacket
  | attributeError
  | assertionFailed
  | nameError
  | structError
  | noTransition
  | divergence
  deriving DecidableEq

/-- Calls made on the external collaborators (factory, protocol, producer). -/
inductive AppEvent
  | listening
  | connectionMade
  | connectionLost
  | halfClosed
  | attemptFailed
  | dataReceived (bytes : List Nat)
  deriving DecidableEq

/-- The result of running an entry point on a connection: the connection with
all mutations performed so far (kept even when an exception was raised, as in
Python), the packets handed to `ptcp.sendPacket`, the collaborator calls, the
machine inputs that were dispatched, whether `releaseConnectionResources`
(and hence `ptcp.connectionClosed`) ran, and the exception, if one
propagated. -/
structure Ctx where
  conn : PTCPConnection
  sent : List PTCPPacket := []
  events : List AppEvent := []
  inputsFed : List TCPInput := []
  released : Bool := false
  err : Option PErr := none
  deriving DecidableEq

/-- Reduce a Python integer modulo `2**32` to a wire sequence number. -/
def natMod32 (i : Int) : Nat := (i % (2 ^ 32 : Int)).toNat

/-- `PTCPConnection.currentAckNum`: `(nextRecvSeqNum + peerSendISN) % 2**32`. -/
def PTCPConnection.currentAckNum (c : PTCPConnection) : Nat :=
  natMod32 (c.nextRecvSeqNum + (c.peerSendISN : Int))

/-- `PTCPConnection._writeBufferFull`: pause a registered, unpaused
producer. -/
def writeBufferFullConn (c : PTCPConnection) : PTCPConnection :=
  if c.producer ∧ ¬c.producerPaused then { c with producerPaused := true } else c

/-- `PTCPConnection.ackSoon`: arm (or reset) the delayed-ACK timer. -/
def ackSoonConn (c : PTCPConnection) : PTCPConnection :=
  { c with ackTimerArmed := true }

/-- `PTCPConnection.originate(data, syn, ack, fin, rst)`: cancel the delayed
ACK, check the ISN assertion for SYNs, build the packet, advance
`nextSendSeqNum`, enqueue retransmittable packets (rejecting a packet after a
queued FIN), and hand the packet to the multiplexer. -/
def originate (ctx : Ctx) (data : List Nat) (syn ack fin rst : Bool) : Ctx :=
  if ctx.err.isSome then ctx else
  let c := { ctx.conn with ackTimerArmed := false }
  if syn ∧ (c.nextSendSeqNum ≠ 0 ∨ c.hostSendISN ≠ 0) then
    { ctx with conn := c, err := some .assertionFailed }
  else
    let p := PTCPPacket.create c.hostPseudoPort c.peerPseudoPort
      (natMod32 (c.nextSendSeqNum + (c.hostSendISN : Int))) c.currentAckNum
      data c.recvWindow syn ack fin rst false c.peerAddressTuple
    let c := { c with nextSendSeqNum := c.nextSendSeqNum + (p.segmentLength : Int) }
    if p.mustRetransmit then
      if (c.retransmissionQueue.getLast?.map PTCPPacket.fin).getD false then
        { ctx with conn := c, err := some .assertionFailed }
      else
        let c := { c with retransmissionQueue := c.retransmissionQueue ++ [p],
                          retransmitArmed := true }
        let c := if c.sendWindowRemaining = 0 then writeBufferFullConn c else c
        { ctx with conn := c, sent := ctx.sent ++ [p] }
    else { ctx with conn := c, sent := ctx.sent ++ [p] }

/-- Interpret one machine output as its side effect on the connection
(tcpdfa.py's `@_machine.output()` bodies). -/
def applyOutput (ctx : Ctx) (o : TCPOutput) : Ctx :=
  if ctx.err.isSome then ctx else
  match o with
  | .sendSyn => originate ctx [] true false false false
  | .sendFin => originate ctx [] false false true false
  | .sendSynAck => originate ctx [] true true false false
  | .sendAck => originate ctx [] false true false false
  | .sendRst => originate ctx [] false false false true
  | .appNotifyConnected =>
    -- connectionJustEstablished: asserts neither disconnecting nor
    -- disconnected, then builds and connects the application protocol.
    if ctx.conn.disconnecting ∨ ctx.conn.disconnected then
      { ctx with err := some .assertionFailed }
    else
      { ctx with conn := { ctx.conn with protocol := true },
                 events := ctx.events ++ [.connectionMade] }
  | .appNotifyDisconnected =>
    -- connectionJustEnded: asserts not already disconnected, notifies the
    -- protocol (exceptions logged and swallowed), drops protocol and
    -- producer references.
    if ctx.conn.disconnected then { ctx with err := some .assertionFailed }
    else
      { ctx with
          conn := { ctx.conn with disconnected := true, protocol := false,
                                  producer := false },
          events := ctx.events ++ [.connectionLost] }
  | .releaseResources =>
    -- releaseConnectionResources: ptcp.connectionClosed(self), then cancel
    -- every timer.
    { ctx with
        conn := { ctx.conn with retransmitArmed := false, nagleArmed := false,
                                closeWaitLoseArmed := false,
                                timeWaitArmed := false, ackTimerArmed := false },
        released := true }
  | .startTimeWaiting =>
    -- scheduleTimeWaitTimeout: stop retransmitting, arm the 2MSL timer.
    { ctx with
        conn := { ctx.conn with retransmitArmed := false, nagleArmed := false,
                                closeWaitLoseArmed := false,
                                timeWaitArmed := true } }
  | .appNotifyListen =>
    { ctx with conn := { ctx.conn with wasEverListen := true },
               events := ctx.events ++ [.listening] }
  | .appNotifyHalfClose =>
    -- nowHalfClosed: schedule the delayed local close.
    { ctx with conn := { ctx.conn with closeWaitLoseArmed := true },
               events := ctx.events ++ [.halfClosed] }
  | .appNotifyAttemptFailed =>
    { ctx with events := ctx.events ++ [.attemptFailed] }

/-- Run a transition's output list in order. -/
def runOutputs (ctx : Ctx) : List TCPOutput → Ctx
  | [] => ctx
  | o :: rest => runOutputs (applyOutput ctx o) rest

/-- Dispatch one input to the state machine: look the transition up, move to
the target state, then run the outputs in order (automat's semantics; an
undefined input raises `NoTransition`). -/
def feedInput (ctx : Ctx) (i : TCPInput) : Ctx :=
  if ctx.err.isSome then ctx else
  let ctx := { ctx with inputsFed := ctx.inputsFed ++ [i] }
  match tcpTransition ctx.conn.machine i with
  | none => { ctx with err := some .noTransition }
  | some si => runOutputs { ctx with conn := { ctx.conn with machine := si.1 } } si.2

/-- The STB branch's queue rebuild: `rq.extend(pkt.fragment(self.mtu))` over
the retransmission queue; `none` when a fragment call fails. -/
def refragmentQueue (mtu : Nat) : List PTCPPacket → Option (List PTCPPacket)
  | [] => some []
  | q :: rest =>
    match q.fragment mtu, refragmentQueue mtu rest with
    | some f, some frest => some (f ++ frest)
    | _, _ => none

/-- The drain predicate of the cumulative-ACK loop: the queued segment is
fully acknowledged when `relativeSeq + segmentLength <= relativeAck`. -/
def fullyAcked (relAck : Int) (q : PTCPPacket) : Bool :=
  q.relativeSeq + (q.segmentLength : Int) ≤ relAck

/-- ptcp.py lines 443-487: the tail of `packetReceived` after ACK
processing — the pure-ACK assertion, the acceptability gate, the no-reorder
drop, data delivery, the `nextRecvSeqNum` advance and the FIN/ack-soon
dispatch. -/
def connPacketReceivedSeg (ctx : Ctx) (p : PTCPPacket) : Ctx :=
  if ctx.err.isSome then ctx else
  let c := ctx.conn
  if p.segmentLength = 0 then
    if ¬p.ack then { ctx with err := some .assertionFailed } else ctx
  else if ¬segmentAcceptable c.nextRecvSeqNum (c.recvWindow : Int) p.relativeSeq
      (p.segmentLength : Int) then
    { ctx with conn := ackSoonConn c }
  else if p.relativeSeq > c.nextRecvSeqNum then ctx
  else
    let ctx :=
      if p.dlen ≠ 0 then
        let usefulData := p.data.drop (c.nextRecvSeqNum - p.relativeSeq).toNat
        let ctx := feedInput ctx .segmentReceived
        if ctx.err.isSome then ctx
        else if ctx.conn.protocol then
          { ctx with events := ctx.events ++ [.dataReceived usefulData] }
        else ctx
      else ctx
    if ctx.err.isSome then ctx else
    let ctx := { ctx with conn := { ctx.conn with
      nextRecvSeqNum := ctx.conn.nextRecvSeqNum + (p.segmentLength : Int) } }
    if p.fin then feedInput ctx .fin
    else if p.segmentLength > 0 then { ctx with conn := ackSoonConn ctx.conn }
    else ctx

/-- ptcp.py lines 422-437: ACK processing.  When the ACK is acceptable the
queue is drained, `sendWindowRemaining` grows by the drained segment lengths
and `oldestUnackedSendSeqNum` becomes the packet's relative ack; the
subsequent `self.machine.maybeReceiveAck(packet)` call then raises
`AttributeError` (no such attribute exists on `TCP`), so the rest of
`packetReceived` is not reached. -/
def connPacketReceivedAck (ctx : Ctx) (p : PTCPPacket) : Ctx :=
  if ctx.err.isSome then ctx else
  let c := ctx.conn
  if p.ack ∧ ackAcceptable c.oldestUnackedSendSeqNum p.relativeAck c.nextSendSeqNum then
    let drained := c.retransmissionQueue.takeWhile (fullyAcked p.relativeAck)
    let c := { c with
      retransmissionQueue := c.retransmissionQueue.dropWhile (fullyAcked p.relativeAck),
      sendWindowRemaining := c.sendWindowRemaining +
        ((drained.map fun q => (q.segmentLength : Int)).sum),
      oldestUnackedSendSeqNum := p.relativeAck }
    { ctx with conn := c, err := some .attributeError }
  else connPacketReceivedSeg ctx p

/-- ptcp.py lines 404-420: the ISN part of SYN handling.  A repeated SYN with
the recorded ISN returns early; a conflicting ISN is a `BadPacketError`; a
first SYN records the ISN, advances `nextRecvSeqNum` past the SYN, and feeds
`syn` when the packet carries no ACK. -/
def connPacketReceivedIsn (ctx : Ctx) (p : PTCPPacket) : Ctx :=
  let c := ctx.conn
  if c.setPeerISN then
    if c.peerSendISN ≠ p.seqNum then { ctx with err := some .badPacket }
    else ctx
  else
    let c := { c with setPeerISN := true, peerSendISN := p.seqNum,
                      nextRecvSeqNum := c.nextRecvSeqNum + (p.segmentLength : Int) }
    let ctx := { ctx with conn := c }
    let ctx := if ¬p.ack then feedInput ctx .syn else ctx
    connPacketReceivedAck ctx p

/-- ptcp.py lines 395-420: SYN handling (segment-length assertion, peer
address bookkeeping for servers and clients), then ACK processing. -/
def connPacketReceivedSyn (ctx : Ctx) (p : PTCPPacket) : Ctx :=
  if p.syn then
    if p.segmentLength ≠ 1 then { ctx with err := some .assertionFailed }
    else
      match ctx.conn.peerAddressTuple with
      | none =>
        if ¬ctx.conn.wasEverListen then { ctx with err := some .assertionFailed }
        else
          connPacketReceivedIsn
            { ctx with conn := { ctx.conn with peerAddressTuple := p.peerAddressTuple } } p
      | some a =>
        if p.peerAddressTuple ≠ some a then { ctx with err := some .assertionFailed }
        else connPacketReceivedIsn ctx p
  else connPacketReceivedAck ctx p

/-- `PTCPConnection.packetReceived(packet)`: STB advisories shrink the MTU
and refragment the queue; a paused consumer drops the packet; data in a SYN
is a `BadPacketError`; then SYN handling, ACK processing and the segment
pipeline. -/
def connPacketReceived (c : PTCPConnection) (p : PTCPPacket) : Ctx :=
  let ctx : Ctx := { conn := c }
  if p.stb then
    match p.data with
    | [a, b] =>
      let m := a * 2 ^ 8 + b
      match refragmentQueue m c.retransmissionQueue with
      | some rq => { ctx with conn := { c with mtu := m, retransmissionQueue := rq } }
      | none => { ctx with conn := { c with mtu := m }, err := some .nameError }
    | _ => { ctx with err := some .structError }
  else if c.paused then ctx
  else if p.syn ∧ p.dlen ≠ 0 then { ctx with err := some .badPacket }
  else connPacketReceivedSyn ctx p

/-- `PTCPConnection._originateOneData`: send
`min(sendWindowRemaining, mtu)` buffered bytes as one `ack=True` data
packet. -/
def originateOneData (ctx : Ctx) : Ctx :=
  if ctx.err.isSome then ctx else
  let c := ctx.conn
  let amount := min c.sendWindowRemaining (c.mtu : Int)
  let sendOut := c.outgoingBytes.take amount.toNat
  let c := { c with outgoingBytes := c.outgoingBytes.drop amount.toNat,
                    sendWindowRemaining := c.sendWindowRemaining - sendOut.length }
  originate { ctx with conn := c } sendOut false true false false

/-- The `while self.sendWindowRemaining and self._outgoingBytes` loop of
`_reallyRetransmit`'s sibling `_reallyWrite`, with fuel.  When
`min(sendWindowRemaining, mtu)` is 0 while the guard holds the Python loop
never terminates; that is reported as `divergence`. -/
def reallyWriteLoop (ctx : Ctx) : Nat → Ctx
  | 0 =>
    if ctx.err.isNone ∧ ctx.conn.sendWindowRemaining > 0 ∧ ctx.conn.outgoingBytes ≠ [] then
      { ctx with err := some .divergence }
    else ctx
  | fuel + 1 =>
    if ctx.err.isSome then ctx
    else if ctx.conn.sendWindowRemaining > 0 ∧ ctx.conn.outgoingBytes ≠ [] then
      if min ctx.conn.sendWindowRemaining (ctx.conn.mtu : Int) ≤ 0 then
        { ctx with err := some .divergence }
      else reallyWriteLoop (originateOneData ctx) fuel
    else ctx

/-- `PTCPConnection._reallyWrite`. -/
def reallyWrite (ctx : Ctx) : Ctx :=
  let ctx := { ctx with conn := { ctx.conn with nagleArmed := false } }
  reallyWriteLoop ctx (ctx.conn.outgoingBytes.length + 1)

/-- `PTCPConnection._writeBufferEmpty`: flush a refilled buffer, resume a
resumable producer, or feed `appClose` when a disconnect is pending. -/
def writeBufferEmptyC (ctx : Ctx) : Ctx :=
  if ctx.err.isSome then ctx else
  let c := ctx.conn
  if c.outgoingBytes ≠ [] then reallyWrite ctx
  else if c.producer then
    if ¬c.streamingProducer ∨ c.producerPaused then
      { ctx with conn := { c with producerPaused := false } }
    else ctx
  else if c.disconnecting ∧ ¬c.disconnected then feedInput ctx .appClose
  else ctx

/-- `PTCPConnection.loseConnection`. -/
def loseConnection (ctx : Ctx) : Ctx :=
  if ctx.err.isSome then ctx else
  if ¬ctx.conn.disconnecting then
    let ctx := { ctx with conn := { ctx.conn with disconnecting := true } }
    if ctx.conn.outgoingBytes = [] then writeBufferEmptyC ctx else ctx
  else ctx

/-- `PTCPConnection.write(bytes)`: append to the outgoing buffer and arm the
send-delay timer; asserts the transport is not disconnected. -/
def connWrite (ctx : Ctx) (bytes : List Nat) : Ctx :=
  if ctx.err.isSome then ctx else
  if ctx.conn.disconnected then { ctx with err := some .assertionFailed }
  else
    { ctx with conn := { ctx.conn with
        outgoingBytes := ctx.conn.outgoingBytes ++ bytes, nagleArmed := true } }

/-- The `for packet in self.retransmissionQueue` walk of
`_reallyRetransmit`: decrement each counter in order; a survivor gets its
`ackNum` refreshed and is resent, the first packet whose counter reaches
zero stops the walk.  Returns the queue contents after the in-place
mutations, the packets resent, and whether the walk hit a dead packet. -/
def retransmitWalk (ackN : Nat) : List PTCPPacket → List PTCPPacket × List PTCPPacket × Bool
  | [] => ([], [], false)
  | q :: rest =>
    let q1 : PTCPPacket := { q with retransmitCount := q.retransmitCount - 1 }
    if q1.retransmitCount ≠ 0 then
      let q2 := { q1 with ackNum := ackN }
      let r := retransmitWalk ackN rest
      (q2 :: r.1, q2 :: r.2.1, r.2.2)
    else (q1 :: rest, [], true)

/-- `PTCPConnection._reallyRetransmit`: on a timer firing, walk a non-empty
queue; feed `timeout` if a packet died, otherwise re-arm the timer. -/
def reallyRetransmit (c : PTCPConnection) : Ctx :=
  let c := { c with retransmitArmed := false }
  if c.retransmissionQueue = [] then { conn := c }
  else
    let r := retransmitWalk c.currentAckNum c.retransmissionQueue
    let ctx : Ctx := { conn := { c with retransmissionQueue := r.1 }, sent := r.2.1 }
    if r.2.2 then feedInput ctx .timeout
    else { ctx with conn := { ctx.conn with retransmitArmed := true } }

/-- The delayed-ACK timer firing: clear the timer, emit a pure ACK. -/
def ackTimerFires (c : PTCPConnection) : Ctx :=
  originate { conn := { c with ackTimerArmed := false } } [] false true false false

/-- `_do2mslTimeout`: the time-wait timer fires and feeds `timeout`. -/
def timeWaitTimerFires (c : PTCPConnection) : Ctx :=
  feedInput { conn := { c with timeWaitArmed := false } } .timeout

/-- `nowHalfClosed`'s delayed `appCloseNow`: the close-wait timer fires and
loses the connection. -/
def closeWaitLoseFires (c : PTCPConnection) : Ctx :=
  loseConnection { conn := { c with closeWaitLoseArmed := false } }

/-- `_writeLater`'s send-delay (Nagle) timer fires: `_reallyWrite`. -/
def nagleFires (c : PTCPConnection) : Ctx :=
  reallyWrite { conn := c }

/-- `registerProducer(producer, streaming)`. -/
def registerProducerC (c : PTCPConnection) (streaming : Bool) : Option PTCPConnection :=
  if c.producer then none
  else if c.disconnected then some c
  else some { c with producer := true, streamingProducer := streaming }

/-- `unregisterProducer`. -/
def unregisterProducerC (c : PTCPConnection) : Ctx :=
  let c := { c with producer := false }
  if c.outgoingBytes = [] then writeBufferEmptyC { conn := c } else { conn := c }

/-- The connection states reachable through the engine's entry points:
creation by the multiplexer (active or passive open), datagram delivery,
application calls, and timer firings.  As in Python, mutations performed
before an exception are retained. -/
inductive ConnReachable : PTCPConnection → Prop
  | activeOpen (hp pp : Nat) (a : Option Addr) :
      ConnReachable (feedInput { conn := PTCPConnection.new hp pp a } .appActiveOpen).conn
  | passiveOpen (hp pp : Nat) (a : Option Addr) :
      ConnReachable (feedInput { conn := PTCPConnection.new hp pp a } .appPassiveOpen).conn
  | packet (c : PTCPConnection) (p : PTCPPacket) : ConnReachable c →
      ConnReachable (connPacketReceived c p).conn
  | write (c : PTCPConnection) (bytes : List Nat) : ConnReachable c →
      ConnReachable (connWrite { conn := c } bytes).conn
  | lose (c : PTCPConnection) : ConnReachable c →
      ConnReachable (loseConnection { conn := c }).conn
  | retransmitFire (c : PTCPConnection) : ConnReachable c →
      c.retransmitArmed = true → ConnReachable (reallyRetransmit c).conn
  | ackFire (c : PTCPConnection) : ConnReachable c →
      c.ackTimerArmed = true → ConnReachable (ackTimerFires c).conn
  | timeWaitFire (c : PTCPConnection) : ConnReachable c →
      c.timeWaitArmed = true → ConnReachable (timeWaitTimerFires c).conn
  | closeWaitFire (c : PTCPConnection) : ConnReachable c →
      c.closeWaitLoseArmed = true → ConnReachable (closeWaitLoseFires c).conn
  | nagleFire (c : PTCPConnection) : ConnReachable c →
      c.nagleArmed = true → ConnReachable (nagleFires c).conn
  | pause (c : PTCPConnection) : ConnReachable c →
      ConnReachable { c with paused := true }
  | resume (c : PTCPConnection) : ConnReachable c →
      ConnReachable { c with paused := false }
  | register (c c' : PTCPConnection) (streaming : Bool) : ConnReachable c →
      registerProducerC c streaming = some c' → ConnReachable c'
  | unregister (c : PTCPConnection) : ConnReachable c →
      ConnReachable (unregisterProducerC c).conn

/-- The send-sequence invariant (I2): the oldest unacknowledged send
sequence number never passes the next send sequence number. -/
def UnaInv (c : PTCPConnection) : Prop :=
  c.oldestUnackedSendSeqNum ≤ c.nextSendSeqNum

/-- The states a connection can be in while the application has already
been told the connection ended (`connectionJustEnded` ran): after
`appNotifyDisconnected` fires the machine is in one of the closing states
and never returns to an earlier state. -/
def lateStates : List TCPState :=
  [.finWait1, .finWait2, .closing, .timeWait, .lastAck]

/-- The per-connection invariant behind (I4): a live (mapped) connection is
never in the terminal state, and once `disconnected` is set the machine is
in one of the `lateStates`. -/
def GoodConn (c : PTCPConnection) : Prop :=
  c.machine ≠ TCPState.closed ∧
    (c.disconnected = true → c.machine ∈ lateStates)

/-- The invariant carried through an entry-point run: either
`releaseResources` ran (the connection will leave the map), or the mutated
connection is still good. -/
def CtxInv (ctx : Ctx) : Prop :=
  ctx.released = true ∨ GoodConn ctx.conn

/-! ## The multiplexer (class PTCP) -/

/-- The key of the `_connections` mapping:
`(sourcePseudoPort, destPseudoPort, peerAddressTuple)` for inbound packets,
`(pseudoPort, sourcePseudoPort, (host, port))` for `connect`. -/
abbrev MuxKey := Nat × Nat × Option Addr

/-- The multiplexer state: the connection map, the transport-gone flag, the
factory (present or not), the module-level `genConnID` counter
(`itertools.count(8)`), and the stopped flag. -/
structure PTCP where
  connections : List (MuxKey × PTCPConnection)
  transportGoneAway : Bool
  hasFactory : Bool
  nextConnID : Nat
  stopped : Bool
  deriving DecidableEq

/-- Dictionary lookup on the connection map. -/
def mlookup (m : List (MuxKey × PTCPConnection)) (k : MuxKey) :
    Option PTCPConnection :=
  match m with
  | [] => none
  | e :: rest => if e.1 = k then some e.2 else mlookup rest k

/-- Dictionary store on the connection map. -/
def minsert (m : List (MuxKey × PTCPConnection)) (k : MuxKey)
    (c : PTCPConnection) : List (MuxKey × PTCPConnection) :=
  match m with
  | [] => [(k, c)]
  | e :: rest => if e.1 = k then (k, c) :: rest else e :: minsert rest k c

/-- Dictionary delete on the connection map. -/
def merase (m : List (MuxKey × PTCPConnection)) (k : MuxKey) :
    List (MuxKey × PTCPConnection) :=
  match m with
  | [] => []
  | e :: rest => if e.1 = k then rest else e :: merase rest k

/-- `PTCP.startProtocol`: empty map, transport alive. -/
def muxInit (hasFactory : Bool) : PTCP :=
  { connections := [], transportGoneAway := false, hasFactory := hasFactory,
    nextConnID := 8, stopped := false }

/-- The result of a multiplexer entry point: the new multiplexer state, the
packets written to the transport, the application-collaborator calls, and an
exception escaping to the reactor, if any. -/
structure MuxResult where
  mux : PTCP
  sent : List PTCPPacket := []
  events : List AppEvent := []
  err : Option PErr := none
  deriving DecidableEq

/-- `PTCP.connectionClosed` bookkeeping after the deletion: stop listening
when the last connection closes, the transport is live and no factory is
configured. -/
def muxConnectionClosedUpd (m : PTCP) : PTCP :=
  if ¬m.transportGoneAway ∧ m.connections = [] ∧ ¬m.hasFactory then
    { m with stopped := true }
  else m

/-- Deliver a packet to the mapped connection
(`self._connections[packey].packetReceived(packet)` inside `try`): a
`connectionClosed` during the call removes the entry; any exception removes
it as well (the `except` clause). -/
def muxDeliver (m : PTCP) (key : MuxKey) (c : PTCPConnection)
    (p : PTCPPacket) : MuxResult :=
  let ctx := connPacketReceived c p
  let conns :=
    if ctx.released then merase m.connections key
    else minsert m.connections key ctx.conn
  let conns := if ctx.err.isSome then merase conns key else conns
  let m := { m with connections := conns }
  let m := if ctx.released then muxConnectionClosedUpd m else m
  { mux := m, sent := ctx.sent, events := ctx.events }

/-- `PTCP.packetReceived`: route by key; synthesise a passive open for a
bare SYN (flags exactly `_SYN`) to pseudo-port 1; drop anything else to an
unknown key. -/
def muxPacketReceived (m : PTCP) (p : PTCPPacket) : MuxResult :=
  let key : MuxKey := (p.sourcePseudoPort, p.destPseudoPort, p.peerAddressTuple)
  match mlookup m.connections key with
  | some c => muxDeliver m key c p
  | none =>
    if p.flags = 1 ∧ p.destPseudoPort = 1 then
      let c0 := PTCPConnection.new p.destPseudoPort p.sourcePseudoPort p.peerAddressTuple
      let ctx0 := feedInput { conn := c0 } .appPassiveOpen
      if ctx0.err.isSome then { mux := m, sent := ctx0.sent, events := ctx0.events, err := ctx0.err }
      else
        let m := { m with connections := minsert m.connections key ctx0.conn }
        let res := muxDeliver m key ctx0.conn p
        { res with sent := ctx0.sent ++ res.sent, events := ctx0.events ++ res.events }
    else { mux := m }

/-- `PTCP.sendPacket`: dropped when the transport is gone.  (Encoding to the
wire is not re-modelled here; the multiplexer results carry the packet
records.) -/
def muxSendPacket (m : PTCP) (p : PTCPPacket) : List PTCPPacket :=
  if m.transportGoneAway then [] else [p]

/-- `PTCP.datagramReceived(bytes, addr)`: drop short datagrams, decode,
verify the checksum; a truncated packet provokes an STB advisory carrying
the observed payload length as a big-endian u16, garbage and checksum
mismatches are logged and dropped, and valid packets are routed. -/
def muxDatagramReceived (m : PTCP) (bytes : List Nat) (addr : Addr) : MuxResult :=
  if bytes.length < fixedSize then { mux := m }
  else
    match PTCPPacket.decode bytes (some addr) with
    | none => { mux := m, err := some .structError }
    | some pkt =>
      match pkt.verifyChecksum with
      | some .truncatedData =>
        if inU16 pkt.data.length then
          { mux := m,
            sent := muxSendPacket m (PTCPPacket.create pkt.destPseudoPort
              pkt.sourcePseudoPort 0 0 (u16be pkt.data.length) (2 ^ 15)
              false false false false true (some addr)) }
        else { mux := m, err := some .structError }
      | some .garbageData => { mux := m }
      | some .checksumMismatch => { mux := m }
      | none => muxPacketReceived m pkt

/-- `PTCP.connect(factory, host, port)`: allocate a pseudo-port from the
module counter, create the connection, store it, feed `appActiveOpen`. -/
def muxConnect (m : PTCP) (host : String) (port : Nat) : MuxResult :=
  let sourcePseudoPort := m.nextConnID % 2 ^ 16
  let m := { m with nextConnID := m.nextConnID + 1 }
  let key : MuxKey := (1, sourcePseudoPort, some (host, port))
  let c0 := PTCPConnection.new sourcePseudoPort 1 (some (host, port))
  let ctx := feedInput { conn := c0 } .appActiveOpen
  { mux := { m with connections := minsert m.connections key ctx.conn },
    sent := ctx.sent, events := ctx.events, err := ctx.err }

/-- Run a connection-level entry point (a timer firing or an application
call) on a mapped connection.  There is no `try`/`except` here: an exception
propagates to the reactor and the (mutated) connection stays mapped unless
`connectionClosed` ran. -/
def muxConnOp (m : PTCP) (key : MuxKey) (op : PTCPConnection → Ctx) : MuxResult :=
  match mlookup m.connections key with
  | none => { mux := m }
  | some c =>
    let ctx := op c
    let conns :=
      if ctx.released then merase m.connections key
      else minsert m.connections key ctx.conn
    let m := { m with connections := conns }
    let m := if ctx.released then muxConnectionClosedUpd m else m
    { mux := m, sent := ctx.sent, events := ctx.events, err := ctx.err }

/-- The multiplexer states reachable by any sequence of datagram arrivals,
timer firings and application calls. -/
inductive MuxReachable : PTCP → Prop
  | init (hasFactory : Bool) : MuxReachable (muxInit hasFactory)
  | datagram (m : PTCP) (bytes : List Nat) (addr : Addr) : MuxReachable m →
      MuxReachable (muxDatagramReceived m bytes addr).mux
  | connect (m : PTCP) (host : String) (port : Nat) : MuxReachable m →
      MuxReachable (muxConnect m host port).mux
  | retransmitFire (m : PTCP) (key : MuxKey) (c : PTCPConnection) :
      MuxReachable m → mlookup m.connections key = some c →
      c.retransmitArmed = true →
      MuxReachable (muxConnOp m key reallyRetransmit).mux
  | ackFire (m : PTCP) (key : MuxKey) (c : PTCPConnection) :
      MuxReachable m → mlookup m.connections key = some c →
      c.ackTimerArmed = true →
      MuxReachable (muxConnOp m key ackTimerFires).mux
  | timeWaitFire (m : PTCP) (key : MuxKey) (c : PTCPConnection) :
      MuxReachable m → mlookup m.connections key = some c →
      c.timeWaitArmed = true →
      MuxReachable (muxConnOp m key timeWaitTimerFires).mux
  | closeWaitFire (m : PTCP) (key : MuxKey) (c : PTCPConnection) :
      MuxReachable m → mlookup m.connections key = some c →
      c.closeWaitLoseArmed = true →
      MuxReachable (muxConnOp m key closeWaitLoseFires).mux
  | nagleFire (m : PTCP) (key : MuxKey) (c : PTCPConnection) :
      MuxReachable m → mlookup m.connections key = some c →
      c.nagleArmed = true →
      MuxReachable (muxConnOp m key nagleFires).mux
  | appLose (m : PTCP) (key : MuxKey) : MuxReachable m →
      MuxReachable (muxConnOp m key (fun c => loseConnection { conn := c })).mux
  | appWrite (m : PTCP) (key : MuxKey) (bytes : List Nat) : MuxReachable m →
      MuxReachable (muxConnOp m key (fun c => connWrite { conn := c } bytes)).mux

/-- The multiplexer invariant: every mapped connection is good. -/
def MuxInv (m : PTCP) : Prop := ∀ e ∈ m.connections, GoodConn e.2

/-! ## Concrete instances used in the theorems -/

/-- A client connection just after `PTCP.connect`'s `appActiveOpen`: machine
in SynSent, one SYN on the retransmission queue, `nextSendSeqNum = 1`. -/
def c1ClientConn : PTCPConnection :=
  (feedInput { conn := PTCPConnection.new 8 1 (some ("peer", 1)) }
    TCPInput.appActiveOpen).conn

/-- The peer's SYN+ACK answer to `c1ClientConn`'s SYN: flags SYN|ACK,
`ack = 1`, the acceptable acknowledgement of the SYN. -/
def c1SynAckPacket : PTCPPacket :=
  { sourcePseudoPort := 1, destPseudoPort := 8, seqNum := 0, ackNum := 1,
    window := 489, flags := 3, checksum := 0, dlen := 0, data := [],
    peerAddressTuple := some ("peer", 1) }

/-- A two-byte data packet built by `create`. -/
def c2pkt : PTCPPacket :=
  PTCPPacket.create 5 1 0 0 [10, 20] 489 false true false false false none

/-- A well-formed 23-byte datagram: the encoding of an empty-payload packet. -/
def c2bytes : List Nat :=
  ((PTCPPacket.create 5 1 0 0 [] 489 false false false false false none).encode).getD []

/-- A truncated datagram: the header advertises `dlen = 5` but only one
payload byte arrived. -/
def c7TruncBytes : List Nat :=
  [0, 9, 0, 1, 0, 0, 0, 0, 0, 0, 0, 0, 0, 0, 1, 233, 2, 0, 0, 0, 0, 0, 5, 7]

/-- The packet decoded from `c7TruncBytes`. -/
def c7TruncPkt : PTCPPacket :=
  { sourcePseudoPort := 9, destPseudoPort := 1, seqNum := 0, ackNum := 0,
    window := 489, flags := 2, checksum := 0, dlen := 5, data := [7],
    peerAddressTuple := some ("h", 4) }

/-- A garbage datagram: `dlen = 0` but one payload byte arrived. -/
def c7GarbageBytes : List Nat :=
  [0, 9, 0, 1, 0, 0, 0, 0, 0, 0, 0, 0, 0, 0, 1, 233, 2, 0, 0, 0, 0, 0, 0, 7]

/-- The packet decoded from `c7GarbageBytes`. -/
def c7GarbagePkt : PTCPPacket :=
  { sourcePseudoPort := 9, destPseudoPort := 1, seqNum := 0, ackNum := 0,
    window := 489, flags := 2, checksum := 0, dlen := 0, data := [7],
    peerAddressTuple := some ("h", 4) }

/-- A datagram whose length matches `dlen` but whose checksum field (0) is
not the CRC-32 of its payload. -/
def c7MismatchBytes : List Nat :=
  [0, 9, 0, 1, 0, 0, 0, 0, 0, 0, 0, 0, 0, 0, 1, 233, 2, 0, 0, 0, 0, 0, 1, 7]

/-- The packet decoded from `c7MismatchBytes`. -/
def c7MismatchPkt : PTCPPacket :=
  { sourcePseudoPort := 9, destPseudoPort := 1, seqNum := 0, ackNum := 0,
    window := 489, flags := 2, checksum := 0, dlen := 1, data := [7],
    peerAddressTuple := some ("h", 4) }

/-- A queued segment survives one more firing of the retransmit timer when
its counter, after the decrement, is still positive. -/
def rtAlive (q : PTCPPacket) : Bool := decide (0 < q.retransmitCount - 1)

/-- The in-place mutation a surviving segment receives on a retransmit
firing: counter decremented, `ackNum` refreshed to the receive cursor. -/
def rtRefresh (ackN : Nat) (q : PTCPPacket) : PTCPPacket :=
  { q with retransmitCount := q.retransmitCount - 1, ackNum := ackN }

/-- A queued data segment with 4 retransmit attempts remaining. -/
def c8P1 : PTCPPacket :=
  { PTCPPacket.create 2 1 0 0 [1] 489 false true false false false none with
      retransmitCount := 5 }

/-- A queued data segment on its last retransmit attempt. -/
def c8P2 : PTCPPacket :=
  { PTCPPacket.create 2 1 1 0 [2] 489 false true false false false none with
      retransmitCount := 1 }

/-- A queued data segment behind `c8P2`. -/
def c8P3 : PTCPPacket :=
  { PTCPPacket.create 2 1 2 0 [3] 489 false true false false false none with
      retransmitCount := 7 }

/-- A SynSent connection with three queued segments and an armed retransmit
timer. -/
def c8Conn : PTCPConnection :=
  { PTCPConnection.new 2 1 none with
      machine := .synSent,
      retransmissionQueue := [c8P1, c8P2, c8P3],
      retransmitArmed := true }

/-- A packet with a valid `dlen` but a stale stored checksum (1 is not the
CRC-32 of the empty payload, which is 0). -/
def c4pkt : PTCPPacket :=
  { sourcePseudoPort := 3, destPseudoPort := 1, seqNum := 0, ackNum := 0,
    window := 100, flags := 2, checksum := 1, dlen := 0, data := [] }

/-- `c4pkt` with its checksum made consistent. -/
def c4okPkt : PTCPPacket :=
  { sourcePseudoPort := 3, destPseudoPort := 1, seqNum := 0, ackNum := 0,
    window := 100, flags := 2, checksum := 0, dlen := 0, data := [] }

/-- A packet whose stored `dlen` (999) and checksum (77) are both
inconsistent with its one-byte payload. -/
def c10pkt : PTCPPacket :=
  { sourcePseudoPort := 3, destPseudoPort := 1, seqNum := 5, ackNum := 6,
    window := 100, flags := 6, checksum := 77, dlen := 999, data := [42] }

/-- A FIN packet whose `dlen` field (1) lies about its empty payload. -/
def c6pkt : PTCPPacket :=
  { sourcePseudoPort := 1, destPseudoPort := 2, seqNum := 0, ackNum := 0,
    window := 10, flags := 4, checksum := 0, dlen := 1, data := [] }

/-- A five-byte FIN+ACK data packet. -/
def c6wPkt : PTCPPacket :=
  { sourcePseudoPort := 1, destPseudoPort := 2, seqNum := 100, ackNum := 0,
    window := 10, flags := 6, checksum := 0, dlen := 5,
    data := [10, 20, 30, 40, 50] }

/-- A queued data segment (3 payload bytes at relative sequence 0) fully
covered by a cumulative ack of 3. -/
def c5Q1 : PTCPPacket :=
  PTCPPacket.create 2 1 0 3 [7, 8, 9] 489 false true false false false none

/-- A queued data segment (2 payload bytes at relative sequence 3) not
covered by a cumulative ack of 3. -/
def c5Q2 : PTCPPacket :=
  PTCPPacket.create 2 1 3 3 [4, 5] 489 false true false false false none

/-- An established connection with two queued segments,
`oldestUnackedSendSeqNum = 0` and `nextSendSeqNum = 5`. -/
def c5Conn : PTCPConnection :=
  { PTCPConnection.new 2 1 none with
      machine := .established,
      retransmissionQueue := [c5Q1, c5Q2],
      nextSendSeqNum := 5 }

/-- A pure ACK packet acknowledging relative sequence 3. -/
def c5Pkt : PTCPPacket :=
  { sourcePseudoPort := 1, destPseudoPort := 2, seqNum := 0, ackNum := 3,
    window := 489, flags := 2, checksum := 0, dlen := 0, data := [] }

/-- The address a peer sends from in the C9 scenario. -/
def c9Addr : Addr := ("h", 9)

/-- The wire bytes of a bare SYN to pseudo-port 1 (the shape that makes the
multiplexer synthesise a passive open). -/
def c9Bytes1 : List Nat :=
  ((PTCPPacket.create 5 1 9 0 [] 100 true false false false false none).encode).getD []

/-- The wire bytes of a SYN carrying one data byte: `BadPacketError` for the
receiving connection. -/
def c9Bytes2 : List Nat :=
  ((PTCPPacket.create 5 1 10 0 [7] 100 true false false false false none).encode).getD []

/-- The multiplexer key both datagrams map to. -/
def c9Key : MuxKey := (5, 1, some c9Addr)

/-- The multiplexer state after the first datagram. -/
def c9M1 : PTCP := (muxDatagramReceived (muxInit true) c9Bytes1 c9Addr).mux

/-- The multiplexer state after the second datagram. -/
def c9M2 : PTCP := (muxDatagramReceived c9M1 c9Bytes2 c9Addr).mux

/-- The connection the first datagram left in the map (in SynRcvd). -/
def c9Conn1 : PTCPConnection :=
  (mlookup c9M1.connections c9Key).getD (PTCPConnection.new 0 0 none)

/-- The decoded second packet. -/
def c9Pkt2 : PTCPPacket :=
  (PTCPPacket.decode c9Bytes2 (some c9Addr)).getD
    (PTCPPacket.create 0 0 0 0 [] 0 false false false false false none)

/-! ## Helper lemmas: the packet codec -/

theorem crc32Bit_lt (c : Nat) (h : c < 2 ^ 32) : crc32Bit c < 2 ^ 32 := by
  unfold crc32Bit
  split
  · exact Nat.xor_lt_two_pow (by omega) (by norm_num)
  · omega

theorem crc32Byte_lt (c b : Nat) (hc : c < 2 ^ 32) (hb : b < 2 ^ 8) :
    crc32Byte c b < 2 ^ 32 := by
  unfold crc32Byte
  have h0 : c ^^^ b < 2 ^ 32 := Nat.xor_lt_two_pow hc (by omega)
  exact crc32Bit_lt _ (crc32Bit_lt _ (crc32Bit_lt _ (crc32Bit_lt _
    (crc32Bit_lt _ (crc32Bit_lt _ (crc32Bit_lt _ (crc32Bit_lt _ h0)))))))

theorem crc32_foldl_lt (data : List Nat) (hb : ∀ b ∈ data, b < 2 ^ 8) :
    ∀ c, c < 2 ^ 32 → data.foldl crc32Byte c < 2 ^ 32 := by
  induction data with
  | nil => intro c hc; simpa using hc
  | cons d rest ih =>
    intro c hc
    simp only [List.foldl_cons]
    exact ih (fun b h => hb b (List.mem_cons_of_mem _ h))
      _ (crc32Byte_lt _ _ hc (hb d (List.mem_cons_self _ _)))

theorem crc32u_lt (data : List Nat) (hb : ∀ b ∈ data, b < 2 ^ 8) :
    crc32u data < 2 ^ 32 := by
  unfold crc32u
  exact Nat.xor_lt_two_pow (crc32_foldl_lt data hb _ (by norm_num)) (by norm_num)

/-- `binascii.crc32` of a byte string lies in the signed 32-bit range. -/
theorem crc32_range (data : List Nat) (hb : ∀ b ∈ data, b < 2 ^ 8) :
    -(2 ^ 31) ≤ crc32 data ∧ crc32 data < 2 ^ 31 := by
  have h := crc32u_lt data hb
  unfold crc32 toSigned32
  split
  next hlt => exact ⟨by omega, by exact_mod_cast hlt⟩
  next hge => omega

theorem toSigned32_roundtrip (i : Int) (h1 : -(2 ^ 31) ≤ i) (h2 : i < 2 ^ 31) :
    toSigned32 ((i % 2 ^ 32).toNat) = i := by
  have hnn : (0 : Int) ≤ i % 2 ^ 32 := Int.emod_nonneg i (by norm_num)
  have hlt : i % 2 ^ 32 < 2 ^ 32 := Int.emod_lt_of_pos i (by norm_num)
  have htn : ((i % 2 ^ 32).toNat : Int) = i % 2 ^ 32 := Int.toNat_of_nonneg hnn
  unfold toSigned32
  split
  next h =>
    have h' : ((i % 2 ^ 32).toNat : Int) < 2 ^ 31 := by exact_mod_cast Nat.cast_lt.mpr h
    omega
  next h =>
    have h' : (2 ^ 31 : Int) ≤ ((i % 2 ^ 32).toNat : Int) := by
      exact_mod_cast Nat.le_of_not_lt h
    omega

/-- The five flag accessors of a packet built by `create` return exactly the
booleans given to `create`. -/
theorem create_flags (sp dp sn an : Nat) (d : List Nat) (w : Nat)
    (s a f r st : Bool) (dst : Option Addr) :
    (PTCPPacket.create sp dp sn an d w s a f r st dst).syn = s ∧
    (PTCPPacket.create sp dp sn an d w s a f r st dst).ack = a ∧
    (PTCPPacket.create sp dp sn an d w s a f r st dst).fin = f ∧
    (PTCPPacket.create sp dp sn an d w s a f r st dst).rst = r ∧
    (PTCPPacket.create sp dp sn an d w s a f r st dst).stb = st := by
  cases s <;> cases a <;> cases f <;> cases r <;> cases st <;>
    simp [PTCPPacket.create, PTCPPacket.syn, PTCPPacket.ack, PTCPPacket.fin,
      PTCPPacket.rst, PTCPPacket.stb, flagsOf] <;> decide

/-- `encode` succeeds exactly on wire-representable fields and produces the
fixed-size header followed by the payload; the `dlen` and `checksum` that
reach the wire are recomputed from the data. -/
theorem decode_encode (p : PTCPPacket) (a : Addr)
    (hsp : p.sourcePseudoPort < 2 ^ 16) (hdp : p.destPseudoPort < 2 ^ 16)
    (hseq : p.seqNum < 2 ^ 32) (hack : p.ackNum < 2 ^ 32) (hwin : p.window < 2 ^ 32)
    (hfl : p.flags < 2 ^ 8) (hlen : p.data.length < 2 ^ 16)
    (hbytes : ∀ b ∈ p.data, b < 2 ^ 8) :
    ∃ bs, p.encode = some bs ∧
      PTCPPacket.decode bs (some a) = some
        { sourcePseudoPort := p.sourcePseudoPort
          destPseudoPort := p.destPseudoPort
          seqNum := p.seqNum
          ackNum := p.ackNum
          window := p.window
          flags := p.flags
          checksum := crc32 p.data
          dlen := p.data.length
          data := p.data
          peerAddressTuple := some a } := by
  obtain ⟨hc1, hc2⟩ := crc32_range p.data hbytes
  have hguard : (inU16 p.sourcePseudoPort && inU16 p.destPseudoPort && inU32 p.seqNum &&
      inU32 p.ackNum && inU32 p.window && inU8 p.flags && inI32 (crc32 p.data) &&
      inU16 p.data.length) = true := by
    simp only [inU16, inU32, inU8, inI32, Bool.and_eq_true, decide_eq_true_eq]
    refine ⟨⟨⟨⟨⟨⟨⟨?_, ?_⟩, ?_⟩, ?_⟩, ?_⟩, ?_⟩, ⟨?_, ?_⟩⟩, ?_⟩ <;> omega
  refine ⟨u16be p.sourcePseudoPort ++ u16be p.destPseudoPort ++ u32be p.seqNum ++
      u32be p.ackNum ++ u32be p.window ++ [p.flags] ++ i32be (crc32 p.data) ++
      u16be p.data.length ++ p.data, ?_, ?_⟩
  · simp only [PTCPPacket.encode]
    rw [if_pos hguard]
  · simp only [u16be, u32be, i32be, List.cons_append, List.nil_append,
      PTCPPacket.decode, Option.some.injEq, PTCPPacket.mk.injEq]
    norm_num
    have hX : (crc32 p.data % 4294967296).toNat / 16777216 % 256 * 16777216 +
          (crc32 p.data % 4294967296).toNat / 65536 % 256 * 65536 +
        (crc32 p.data % 4294967296).toNat / 256 % 256 * 256 +
      (crc32 p.data % 4294967296).toNat % 256 = ((crc32 p.data % 2 ^ 32).toNat) := by
      omega
    refine ⟨by omega, by omega, by omega, by omega, by omega, ?_, by omega⟩
    rw [hX]
    exact toSigned32_roundtrip _ hc1 hc2

/-- Every successful encoding is the 23-byte header followed by the data. -/
theorem encode_length (p : PTCPPacket) (bs : List Nat) (h : p.encode = some bs) :
    bs.length = fixedSize + p.data.length := by
  simp only [PTCPPacket.encode] at h
  split at h
  · injection h with h
    subst h
    simp [u16be, u32be, i32be, fixedSize, packetFormatSizes]
    omega
  · exact absurd h (by simp)

/-- A datagram at least as long as the header always decodes. -/
theorem decode_isSome (bytes : List Nat) (a : Option Addr)
    (h : fixedSize ≤ bytes.length) : (PTCPPacket.decode bytes a).isSome = true := by
  rcases bytes with _ | ⟨b0, _ | ⟨b1, _ | ⟨b2, _ | ⟨b3, _ | ⟨b4, _ | ⟨b5, _ | ⟨b6,
    _ | ⟨b7, _ | ⟨b8, _ | ⟨b9, _ | ⟨b10, _ | ⟨b11, _ | ⟨b12, _ | ⟨b13, _ | ⟨b14,
    _ | ⟨b15, _ | ⟨b16, _ | ⟨b17, _ | ⟨b18, _ | ⟨b19, _ | ⟨b20, _ | ⟨b21,
    _ | ⟨b22, rest⟩⟩⟩⟩⟩⟩⟩⟩⟩⟩⟩⟩⟩⟩⟩⟩⟩⟩⟩⟩⟩⟩⟩ <;>
    first
      | rfl
      | (exfalso
         simp only [fixedSize, packetFormatSizes, List.sum_cons, List.sum_nil,
           List.length] at h
         omega)

/-- A datagram shorter than the header does not decode
(`struct.unpack` would fail). -/
theorem decode_none_of_short (bytes : List Nat) (a : Option Addr)
    (h : bytes.length < fixedSize) : PTCPPacket.decode bytes a = none := by
  rcases bytes with _ | ⟨b0, _ | ⟨b1, _ | ⟨b2, _ | ⟨b3, _ | ⟨b4, _ | ⟨b5, _ | ⟨b6,
    _ | ⟨b7, _ | ⟨b8, _ | ⟨b9, _ | ⟨b10, _ | ⟨b11, _ | ⟨b12, _ | ⟨b13, _ | ⟨b14,
    _ | ⟨b15, _ | ⟨b16, _ | ⟨b17, _ | ⟨b18, _ | ⟨b19, _ | ⟨b20, _ | ⟨b21,
    _ | ⟨b22, rest⟩⟩⟩⟩⟩⟩⟩⟩⟩⟩⟩⟩⟩⟩⟩⟩⟩⟩⟩⟩⟩⟩⟩ <;>
    first
      | rfl
      | (exfalso
         simp only [fixedSize, packetFormatSizes, List.sum_cons, List.sum_nil,
           List.length] at h
         omega)

/-! ## Claim C1 -/

/-- C1 (code-bug evidence): `packetReceived` is supposed to feed `synAck`
(while SynSent) or `ack` for an acceptable ACK, but the code invokes
`self.machine.maybeReceiveAck(packet)`, and `maybeReceiveAck` is not among
the machine's declared inputs — indeed not an attribute of `TCP` at all — so
the call raises `AttributeError` and no input is dispatched.  Concretely: a
client in SynSent receiving the peer's acceptable SYN+ACK ends with an
`AttributeError`, an empty dispatched-input list, and a machine still in
SynSent. -/
theorem C1_ack_dispatch_is_undefined_attribute :
    ackDispatchAttributeName ∉ tcpInputNames ∧
    ackDispatchAttributeName ∉ tcpAttributeNames ∧
    c1ClientConn.machine = TCPState.synSent ∧
    c1SynAckPacket.ack = true ∧
    ackAcceptable c1ClientConn.oldestUnackedSendSeqNum c1SynAckPacket.relativeAck
      c1ClientConn.nextSendSeqNum = true ∧
    (connPacketReceived c1ClientConn c1SynAckPacket).err = some PErr.attributeError ∧
    (connPacketReceived c1ClientConn c1SynAckPacket).inputsFed = [] ∧
    (connPacketReceived c1ClientConn c1SynAckPacket).conn.machine = TCPState.synSent := by
  decide

/-! ## Claim C2 -/

/-- C2 (counterexample): the header is not 19 bytes and the initial MTU is
not 493 — encoding an empty-payload packet yields 23 bytes
(`struct.calcsize('!HHLLLBlH') = 2+2+4+4+4+1+4+2 = 23`), and a fresh
connection's MTU is `512 - 23 = 489`. -/
theorem C2_header_19_and_mtu_493_refuted :
    c2bytes.length = 23 ∧ c2bytes.length ≠ 19 ∧ fixedSize ≠ 19 ∧
    (PTCPConnection.new 1 2 none).mtu = 489 ∧
    (PTCPConnection.new 1 2 none).mtu ≠ 493 := by
  decide

/-- C2 (amended): the encoded wire header is exactly 23 bytes long
(`_fixedSize = 23`); every encoding is the 23-byte header plus the payload;
`decode` succeeds exactly on datagrams of at least 23 bytes, which is also
the `datagramReceived` length gate; and a fresh connection's initial MTU is
`512 - 23 = 489`. -/
theorem C2_header_size_and_initial_mtu :
    fixedSize = 23 ∧
    (∀ p : PTCPPacket, ∀ bs, p.encode = some bs →
      bs.length = fixedSize + p.data.length) ∧
    (∀ bytes : List Nat, ∀ a, fixedSize ≤ bytes.length →
      (PTCPPacket.decode bytes a).isSome = true) ∧
    (∀ bytes : List Nat, ∀ a, bytes.length < fixedSize →
      PTCPPacket.decode bytes a = none) ∧
    (∀ m bytes addr, bytes.length < fixedSize →
      muxDatagramReceived m bytes addr = { mux := m }) ∧
    (∀ hp pp a, (PTCPConnection.new hp pp a).mtu = 512 - fixedSize) ∧
    512 - fixedSize = 489 := by
  refine ⟨rfl, encode_length, decode_isSome, decode_none_of_short, ?_, fun hp pp a => rfl, rfl⟩
  intro m bytes addr h
  unfold muxDatagramReceived
  rw [if_pos h]

/-- C2 witness: the amended statement applied at concrete inputs. -/
theorem C2_header_size_and_initial_mtu_witness :
    c2bytes.length = fixedSize + 0 ∧
    (PTCPPacket.decode c2bytes none).isSome = true ∧
    muxDatagramReceived (muxInit true) [1, 2, 3] ("h", 4) =
      { mux := muxInit true } := by
  refine ⟨?_, ?_, ?_⟩
  · exact C2_header_size_and_initial_mtu.2.1
      (PTCPPacket.create 5 1 0 0 [] 489 false false false false false none)
      c2bytes (by decide)
  · exact C2_header_size_and_initial_mtu.2.2.1 c2bytes none (by decide)
  · exact C2_header_size_and_initial_mtu.2.2.2.2.1 (muxInit true) [1, 2, 3]
      ("h", 4) (by decide)

/-! ## Claim C3 -/

open TCPState TCPInput TCPOutput in
/-- C3: every row of the §4.3 transition table is realised by the machine:
feeding the row's input in the row's source state produces exactly the row's
outputs, in order, and enters the row's target state. -/
theorem C3_transition_table :
    tcpTransition closed appPassiveOpen = some (TCPState.listen, [appNotifyListen]) ∧
    tcpTransition closed appActiveOpen = some (synSent, [sendSyn]) ∧
    tcpTransition synSent TCPInput.synAck = some (established, [sendAck, appNotifyConnected]) ∧
    tcpTransition synSent timeout = some (closed, [appNotifyAttemptFailed, releaseResources]) ∧
    tcpTransition synSent appClose = some (closed, [appNotifyAttemptFailed, releaseResources]) ∧
    tcpTransition TCPState.listen TCPInput.syn = some (synRcvd, [sendSynAck]) ∧
    tcpTransition TCPState.listen appSendData = some (synSent, [sendSyn]) ∧
    tcpTransition synRcvd TCPInput.ack = some (established, [appNotifyConnected]) ∧
    tcpTransition synRcvd appClose = some (finWait1, [sendFin]) ∧
    tcpTransition synRcvd timeout = some (closed, [sendRst, releaseResources]) ∧
    tcpTransition synRcvd TCPInput.rst = some (closed, [releaseResources]) ∧
    tcpTransition established TCPInput.segmentReceived = some (established, [sendAck]) ∧
    tcpTransition established appClose = some (finWait1, [appNotifyDisconnected, sendFin]) ∧
    tcpTransition established TCPInput.fin = some (closeWait, [appNotifyHalfClose, sendAck]) ∧
    tcpTransition established timeout = some (closed, [appNotifyDisconnected, releaseResources]) ∧
    tcpTransition closeWait appClose = some (lastAck, [sendFin, appNotifyDisconnected]) ∧
    tcpTransition closeWait timeout = some (closed, [appNotifyDisconnected, releaseResources]) ∧
    tcpTransition lastAck TCPInput.ack = some (closed, [releaseResources]) ∧
    tcpTransition lastAck timeout = some (closed, [releaseResources]) ∧
    tcpTransition finWait1 TCPInput.ack = some (finWait2, []) ∧
    tcpTransition finWait1 TCPInput.fin = some (closing, [sendAck]) ∧
    tcpTransition finWait1 timeout = some (closed, [releaseResources]) ∧
    tcpTransition finWait2 TCPInput.fin = some (timeWait, [sendAck, startTimeWaiting]) ∧
    tcpTransition finWait2 timeout = some (closed, [releaseResources]) ∧
    tcpTransition closing TCPInput.ack = some (timeWait, [startTimeWaiting]) ∧
    tcpTransition closing timeout = some (closed, [releaseResources]) ∧
    tcpTransition timeWait timeout = some (closed, [releaseResources]) ∧
    tcpTransition finWait1 TCPInput.segmentReceived = some (finWait1, []) ∧
    tcpTransition finWait2 TCPInput.segmentReceived = some (finWait2, []) ∧
    tcpTransition closing TCPInput.segmentReceived = some (closing, []) := by
  exact ⟨rfl, rfl, rfl, rfl, rfl, rfl, rfl, rfl, rfl, rfl, rfl, rfl, rfl, rfl, rfl, rfl, rfl, rfl, rfl, rfl, rfl, rfl, rfl, rfl, rfl, rfl, rfl, rfl, rfl, rfl⟩

/-! ## Claim C7 -/

/-- The three failure modes of `verifyChecksum`, each characterised exactly,
plus the success condition. -/
theorem verifyChecksum_cases (p : PTCPPacket) :
    (p.verifyChecksum = some .truncatedData ↔ p.data.length < p.dlen) ∧
    (p.verifyChecksum = some .garbageData ↔ p.dlen < p.data.length) ∧
    (p.verifyChecksum = some .checksumMismatch ↔
      (p.data.length = p.dlen ∧ crc32 p.data ≠ p.checksum)) ∧
    (p.verifyChecksum = none ↔ (p.data.length = p.dlen ∧ crc32 p.data = p.checksum)) := by
  unfold PTCPPacket.verifyChecksum PTCPPacket.computeChecksum
  split_ifs with h1 h2 h3 <;> simp_all <;> omega

/-- A decoded packet's `dlen` field came from two wire bytes and so fits in
a u16. -/
theorem decode_dlen_bounded (bytes : List Nat) (a : Option Addr) (p : PTCPPacket)
    (hb : ∀ b ∈ bytes, b < 2 ^ 8) (h : PTCPPacket.decode bytes a = some p) :
    p.dlen < 2 ^ 16 := by
  rcases bytes with _ | ⟨b0, _ | ⟨b1, _ | ⟨b2, _ | ⟨b3, _ | ⟨b4, _ | ⟨b5, _ | ⟨b6,
    _ | ⟨b7, _ | ⟨b8, _ | ⟨b9, _ | ⟨b10, _ | ⟨b11, _ | ⟨b12, _ | ⟨b13, _ | ⟨b14,
    _ | ⟨b15, _ | ⟨b16, _ | ⟨b17, _ | ⟨b18, _ | ⟨b19, _ | ⟨b20, _ | ⟨b21,
    _ | ⟨b22, rest⟩⟩⟩⟩⟩⟩⟩⟩⟩⟩⟩⟩⟩⟩⟩⟩⟩⟩⟩⟩⟩⟩⟩ <;>
    simp only [PTCPPacket.decode, Option.some.injEq, reduceCtorEq] at h
  have h21 : b21 < 2 ^ 8 := hb b21 (by simp)
  have h22 : b22 < 2 ^ 8 := hb b22 (by simp)
  subst h
  simp only
  omega

/-- C7: `verifyChecksum` fails with Truncated exactly when the payload is
shorter than `dlen`, with Garbage exactly when it is longer, and with
ChecksumMismatch exactly when the lengths agree but the CRC-32 differs; a
truncated datagram makes `datagramReceived` answer with a single STB packet
carrying the observed payload length as a big-endian u16 back to the
sender's pseudo-port, while garbage and checksum mismatches are dropped with
no reply and no state change. -/
theorem C7_checksum_failure_handling :
    (∀ p : PTCPPacket,
      (p.verifyChecksum = some .truncatedData ↔ p.data.length < p.dlen) ∧
      (p.verifyChecksum = some .garbageData ↔ p.dlen < p.data.length) ∧
      (p.verifyChecksum = some .checksumMismatch ↔
        p.data.length = p.dlen ∧ crc32 p.data ≠ p.checksum)) ∧
    (∀ (m : PTCP) (bytes : List Nat) (addr : Addr) (pkt : PTCPPacket),
      m.transportGoneAway = false →
      (∀ b ∈ bytes, b < 2 ^ 8) →
      fixedSize ≤ bytes.length →
      PTCPPacket.decode bytes (some addr) = some pkt →
      pkt.verifyChecksum = some .truncatedData →
      (muxDatagramReceived m bytes addr).mux = m ∧
      ∃ reply,
        (muxDatagramReceived m bytes addr).sent = [reply] ∧
        reply.stb = true ∧ reply.data = u16be pkt.data.length ∧
        reply.data.length = 2 ∧
        reply.sourcePseudoPort = pkt.destPseudoPort ∧
        reply.destPseudoPort = pkt.sourcePseudoPort ∧
        reply.destination = some addr) ∧
    (∀ (m : PTCP) (bytes : List Nat) (addr : Addr) (pkt : PTCPPacket),
      fixedSize ≤ bytes.length →
      PTCPPacket.decode bytes (some addr) = some pkt →
      (pkt.verifyChecksum = some .garbageData ∨
        pkt.verifyChecksum = some .checksumMismatch) →
      muxDatagramReceived m bytes addr = { mux := m }) := by
  refine ⟨fun p => ⟨(verifyChecksum_cases p).1, (verifyChecksum_cases p).2.1,
      (verifyChecksum_cases p).2.2.1⟩, ?_, ?_⟩
  · intro m bytes addr pkt hgone hb hlen hdec hver
    have hdlen : pkt.dlen < 2 ^ 16 := decode_dlen_bounded bytes (some addr) pkt hb hdec
    have htr : pkt.data.length < pkt.dlen := (verifyChecksum_cases pkt).1.mp hver
    have hg : inU16 pkt.data.length = true := by
      simp only [inU16, decide_eq_true_eq]
      omega
    unfold muxDatagramReceived
    rw [if_neg (by omega)]
    simp only [hdec, hver, hg, if_true, muxSendPacket, hgone, Bool.false_eq_true,
      if_false]
    refine ⟨trivial, _, rfl, ?_, rfl, rfl, rfl, rfl, rfl⟩
    exact (create_flags _ _ _ _ _ _ _ _ _ _ _ _).2.2.2.2
  · intro m bytes addr pkt hlen hdec hver
    unfold muxDatagramReceived
    rw [if_neg (by omega)]
    rcases hver with hver | hver <;> simp only [hdec, hver]

/-- C7 witness: the theorem applied to one concrete truncated, one garbage
and one checksum-mismatched datagram. -/
theorem C7_checksum_failure_handling_witness :
    ((muxDatagramReceived (muxInit true) c7TruncBytes ("h", 4)).mux = muxInit true ∧
      ∃ reply,
        (muxDatagramReceived (muxInit true) c7TruncBytes ("h", 4)).sent = [reply] ∧
        reply.stb = true ∧ reply.data = u16be c7TruncPkt.data.length ∧
        reply.data.length = 2 ∧
        reply.sourcePseudoPort = c7TruncPkt.destPseudoPort ∧
        reply.destPseudoPort = c7TruncPkt.sourcePseudoPort ∧
        reply.destination = some ("h", 4)) ∧
    muxDatagramReceived (muxInit true) c7GarbageBytes ("h", 4) = { mux := muxInit true } ∧
    muxDatagramReceived (muxInit true) c7MismatchBytes ("h", 4) = { mux := muxInit true } := by
  refine ⟨C7_checksum_failure_handling.2.1 (muxInit true) c7TruncBytes ("h", 4)
      c7TruncPkt rfl (by decide) (by decide) (by decide) (by decide),
    C7_checksum_failure_handling.2.2 (muxInit true) c7GarbageBytes ("h", 4)
      c7GarbagePkt (by decide) (by decide) (Or.inl (by decide)),
    C7_checksum_failure_handling.2.2 (muxInit true) c7MismatchBytes ("h", 4)
      c7MismatchPkt (by decide) (by decide) (Or.inr (by decide))⟩

/-! ## Claim C8 -/

theorem retransmitWalk_sent (ackN : Nat) (Q : List PTCPPacket)
    (hpos : ∀ q ∈ Q, 1 ≤ q.retransmitCount) :
    (retransmitWalk ackN Q).2.1 = (Q.takeWhile rtAlive).map (rtRefresh ackN) := by
  induction Q with
  | nil => rfl
  | cons q rest ih =>
    have hq : 1 ≤ q.retransmitCount := hpos q (List.mem_cons_self _ _)
    have hrest := ih (fun x hx => hpos x (List.mem_cons_of_mem _ hx))
    unfold retransmitWalk
    by_cases hal : rtAlive q = true
    · have hne : q.retransmitCount - 1 ≠ 0 := by
        simp only [rtAlive, decide_eq_true_eq] at hal
        omega
      rw [if_pos hne]
      simp only [List.takeWhile_cons, hal, if_true, List.map_cons]
      rw [hrest]
      rfl
    · have hne : ¬(q.retransmitCount - 1 ≠ 0) := by
        simp only [rtAlive, decide_eq_true_eq] at hal
        omega
      rw [if_neg hne]
      simp only [List.takeWhile_cons, hal, if_false, List.map_nil]
      rfl

theorem retransmitWalk_dead_none (ackN : Nat) (Q : List PTCPPacket)
    (hpos : ∀ q ∈ Q, 1 ≤ q.retransmitCount) (h : Q.dropWhile rtAlive = []) :
    (retransmitWalk ackN Q).1 = (Q.takeWhile rtAlive).map (rtRefresh ackN) ∧
    (retransmitWalk ackN Q).2.2 = false := by
  induction Q with
  | nil => exact ⟨rfl, rfl⟩
  | cons q rest ih =>
    have hq : 1 ≤ q.retransmitCount := hpos q (List.mem_cons_self _ _)
    by_cases hal : rtAlive q = true
    · rw [List.dropWhile_cons, if_pos hal] at h
      have hrest := ih (fun x hx => hpos x (List.mem_cons_of_mem _ hx)) h
      have hne : q.retransmitCount - 1 ≠ 0 := by
        simp only [rtAlive, decide_eq_true_eq] at hal
        omega
      unfold retransmitWalk
      rw [if_pos hne]
      simp only [List.takeWhile_cons, hal, if_true, List.map_cons]
      exact ⟨by rw [hrest.1]; rfl, by rw [hrest.2]⟩
    · rw [List.dropWhile_cons, if_neg hal] at h
      exact absurd h (by simp)

theorem retransmitWalk_dead_some (ackN : Nat) (Q : List PTCPPacket) (d : PTCPPacket)
    (rest : List PTCPPacket)
    (hpos : ∀ q ∈ Q, 1 ≤ q.retransmitCount) (h : Q.dropWhile rtAlive = d :: rest) :
    (retransmitWalk ackN Q).1 = (Q.takeWhile rtAlive).map (rtRefresh ackN) ++
      ({ d with retransmitCount := d.retransmitCount - 1 } :: rest) ∧
    (retransmitWalk ackN Q).2.2 = true := by
  induction Q with
  | nil => exact absurd h (by simp)
  | cons q qrest ih =>
    have hq : 1 ≤ q.retransmitCount := hpos q (List.mem_cons_self _ _)
    by_cases hal : rtAlive q = true
    · rw [List.dropWhile_cons, if_pos hal] at h
      have hrest := ih (fun x hx => hpos x (List.mem_cons_of_mem _ hx)) h
      have hne : q.retransmitCount - 1 ≠ 0 := by
        simp only [rtAlive, decide_eq_true_eq] at hal
        omega
      unfold retransmitWalk
      rw [if_pos hne]
      simp only [List.takeWhile_cons, hal, if_true, List.map_cons]
      exact ⟨by rw [hrest.1]; rfl, by rw [hrest.2]⟩
    · rw [List.dropWhile_cons, if_neg hal] at h
      have hd : q = d ∧ qrest = rest := by
        injection h with h1 h2
        exact ⟨h1, h2⟩
      obtain ⟨rfl, rfl⟩ := hd
      have hz : ¬(q.retransmitCount - 1 ≠ 0) := by
        simp only [rtAlive, decide_eq_true_eq] at hal
        omega
      unfold retransmitWalk
      rw [if_neg hz]
      simp only [List.takeWhile_cons, hal, if_false, List.map_nil, List.nil_append]
      exact ⟨rfl, trivial⟩

theorem mustRetransmit_create (sp dp sn an : Nat) (d : List Nat) (w : Nat)
    (s a f r st : Bool) (dst : Option Addr) :
    (PTCPPacket.create sp dp sn an d w s a f r st dst).mustRetransmit =
      (s || f || d.length != 0) := by
  obtain ⟨h1, _, h3, _, _⟩ := create_flags sp dp sn an d w s a f r st dst
  unfold PTCPPacket.mustRetransmit
  rw [h1, h3]
  rfl

theorem originate_no_append (ctx : Ctx) (a r : Bool) :
    (originate ctx [] false a false r).conn.retransmissionQueue =
      ctx.conn.retransmissionQueue ∧
    (originate ctx [] false a false r).inputsFed = ctx.inputsFed := by
  unfold originate
  split
  · exact ⟨rfl, rfl⟩
  · rw [if_neg (by simp)]
    rw [if_neg (by simp [mustRetransmit_create])]
    exact ⟨rfl, rfl⟩

theorem applyOutput_rq_fed (ctx : Ctx) (o : TCPOutput)
    (h1 : o ≠ .sendSyn) (h2 : o ≠ .sendSynAck) (h3 : o ≠ .sendFin) :
    (applyOutput ctx o).conn.retransmissionQueue = ctx.conn.retransmissionQueue ∧
    (applyOutput ctx o).inputsFed = ctx.inputsFed := by
  cases o
  case sendSyn => exact absurd rfl h1
  case sendSynAck => exact absurd rfl h2
  case sendFin => exact absurd rfl h3
  case sendAck =>
    simp only [applyOutput]
    split
    · exact ⟨rfl, rfl⟩
    · exact originate_no_append ctx true false
  case sendRst =>
    simp only [applyOutput]
    split
    · exact ⟨rfl, rfl⟩
    · exact originate_no_append ctx false true
  all_goals simp only [applyOutput]
  all_goals split
  all_goals first | exact ⟨rfl, rfl⟩ | (split <;> exact ⟨rfl, rfl⟩)

theorem runOutputs_rq_fed (outs : List TCPOutput)
    (ho : ∀ o ∈ outs, o ≠ .sendSyn ∧ o ≠ .sendSynAck ∧ o ≠ .sendFin) :
    ∀ ctx : Ctx, (runOutputs ctx outs).conn.retransmissionQueue =
        ctx.conn.retransmissionQueue ∧
      (runOutputs ctx outs).inputsFed = ctx.inputsFed := by
  induction outs with
  | nil => intro ctx; exact ⟨rfl, rfl⟩
  | cons o rest ih =>
    intro ctx
    obtain ⟨g1, g2, g3⟩ := ho o (List.mem_cons_self _ _)
    have ha := applyOutput_rq_fed ctx o g1 g2 g3
    have hr := ih (fun x hx => ho x (List.mem_cons_of_mem _ hx)) (applyOutput ctx o)
    exact ⟨hr.1.trans ha.1, hr.2.trans ha.2⟩

theorem feedInput_timeout_effects (ctx : Ctx) (herr : ctx.err = none) :
    (feedInput ctx .timeout).conn.retransmissionQueue = ctx.conn.retransmissionQueue ∧
    (feedInput ctx .timeout).inputsFed = ctx.inputsFed ++ [.timeout] := by
  unfold feedInput
  rw [herr]
  simp only [Option.isSome_none, Bool.false_eq_true, if_false]
  cases hm : ctx.conn.machine <;> simp only [hm, tcpTransition] <;>
    first
      | exact ⟨trivial, trivial⟩
      | exact ⟨rfl, rfl⟩
      | (apply runOutputs_rq_fed
         decide)

theorem originate_sent_mono (ctx : Ctx) (d : List Nat) (s a f r : Bool) :
    ∃ e, (originate ctx d s a f r).sent = ctx.sent ++ e := by
  unfold originate
  split
  · exact ⟨[], by simp⟩
  · dsimp only
    split
    · exact ⟨[], by simp⟩
    · split
      · split
        · exact ⟨[], by simp⟩
        · exact ⟨[_], rfl⟩
      · exact ⟨[_], rfl⟩

theorem applyOutput_sent_mono (ctx : Ctx) (o : TCPOutput) :
    ∃ e, (applyOutput ctx o).sent = ctx.sent ++ e := by
  cases o <;> simp only [applyOutput] <;> split
  all_goals first
    | exact originate_sent_mono _ _ _ _ _ _
    | (split <;> exact ⟨[], by simp⟩)
    | exact ⟨[], by simp⟩

theorem runOutputs_sent_mono (outs : List TCPOutput) :
    ∀ ctx : Ctx, ∃ e, (runOutputs ctx outs).sent = ctx.sent ++ e := by
  induction outs with
  | nil => intro ctx; exact ⟨[], by simp [runOutputs]⟩
  | cons o rest ih =>
    intro ctx
    obtain ⟨e1, he1⟩ := applyOutput_sent_mono ctx o
    obtain ⟨e2, he2⟩ := ih (applyOutput ctx o)
    exact ⟨e1 ++ e2, by rw [runOutputs, he2, he1, List.append_assoc]⟩

theorem feedInput_sent_mono (ctx : Ctx) (i : TCPInput) :
    ∃ e, (feedInput ctx i).sent = ctx.sent ++ e := by
  unfold feedInput
  split
  · exact ⟨[], by simp⟩
  · dsimp only
    split
    · exact ⟨[], by simp⟩
    · exact runOutputs_sent_mono _ _

/-- C8: every packet built by `create` starts with a retransmit counter of
50; when the retransmit timer fires on a non-empty queue the queue is walked
in order, decrementing counters: if no counter reaches zero every packet is
refreshed (`ackNum := currentAckNum()`) and resent and the timer is re-armed,
and otherwise the refreshed survivors preceding the first dead packet are
resent, `timeout` is fed to the machine (it is the only input dispatched),
the walk stops — the dead packet keeps counter 0 and later packets are
untouched. -/
theorem C8_retransmission_timer :
    (∀ (sp dp sn an : Nat) (d : List Nat) (w : Nat) (s a f r st : Bool)
        (dst : Option Addr),
      (PTCPPacket.create sp dp sn an d w s a f r st dst).retransmitCount = 50) ∧
    (∀ c : PTCPConnection, c.retransmissionQueue ≠ [] →
      (∀ q ∈ c.retransmissionQueue, 1 ≤ q.retransmitCount) →
      (c.retransmissionQueue.dropWhile rtAlive = [] →
        (reallyRetransmit c).sent =
          (c.retransmissionQueue.takeWhile rtAlive).map (rtRefresh c.currentAckNum) ∧
        (reallyRetransmit c).inputsFed = [] ∧
        (reallyRetransmit c).conn.retransmissionQueue =
          (c.retransmissionQueue.takeWhile rtAlive).map (rtRefresh c.currentAckNum) ∧
        (reallyRetransmit c).conn.retransmitArmed = true) ∧
      (∀ d rest, c.retransmissionQueue.dropWhile rtAlive = d :: rest →
        (reallyRetransmit c).inputsFed = [TCPInput.timeout] ∧
        (reallyRetransmit c).conn.retransmissionQueue =
          (c.retransmissionQueue.takeWhile rtAlive).map (rtRefresh c.currentAckNum) ++
            ({ d with retransmitCount := d.retransmitCount - 1 } :: rest) ∧
        ∃ extra, (reallyRetransmit c).sent =
          (c.retransmissionQueue.takeWhile rtAlive).map (rtRefresh c.currentAckNum) ++
            extra)) := by
  refine ⟨fun sp dp sn an d w s a f r st dst => rfl, ?_⟩
  intro c hne hpos
  have hca : ({ c with retransmitArmed := false } : PTCPConnection).currentAckNum
      = c.currentAckNum := rfl
  have hsent := retransmitWalk_sent c.currentAckNum c.retransmissionQueue hpos
  constructor
  · intro hdead
    obtain ⟨hq, hflag⟩ :=
      retransmitWalk_dead_none c.currentAckNum c.retransmissionQueue hpos hdead
    unfold reallyRetransmit
    rw [if_neg hne]
    dsimp only
    rw [hca, hflag]
    simp only [Bool.false_eq_true, if_false]
    exact ⟨hsent, by trivial, hq, by trivial⟩
  · intro d rest hdead
    obtain ⟨hq, hflag⟩ :=
      retransmitWalk_dead_some c.currentAckNum c.retransmissionQueue d rest hpos hdead
    unfold reallyRetransmit
    rw [if_neg hne]
    dsimp only
    rw [hca, hflag]
    simp only [if_true]
    refine ⟨(feedInput_timeout_effects _ rfl).2, ?_, ?_⟩
    · rw [(feedInput_timeout_effects _ rfl).1]
      exact hq
    · obtain ⟨e, he⟩ := feedInput_sent_mono
        { conn := { c with
            retransmitArmed := false,
            retransmissionQueue := (retransmitWalk c.currentAckNum c.retransmissionQueue).1 },
          sent := (retransmitWalk c.currentAckNum c.retransmissionQueue).2.1 }
        TCPInput.timeout
      refine ⟨e, ?_⟩
      rw [he]
      exact congrArg (fun l => l ++ e) hsent

/-- C8 witness: firing the timer on `c8Conn` (counters 5, 1, 7) resends the
first segment refreshed, kills the second, feeds `timeout` and leaves the
third untouched. -/
theorem C8_retransmission_timer_witness :
    (reallyRetransmit c8Conn).inputsFed = [TCPInput.timeout] ∧
    (reallyRetransmit c8Conn).conn.retransmissionQueue =
      (c8Conn.retransmissionQueue.takeWhile rtAlive).map
        (rtRefresh c8Conn.currentAckNum) ++
        ({ c8P2 with retransmitCount := c8P2.retransmitCount - 1 } :: [c8P3]) ∧
    (PTCPPacket.create 1 2 3 4 [5] 6 true false false false false none).retransmitCount = 50 := by
  have h := (C8_retransmission_timer.2 c8Conn (by decide) (by decide)).2 c8P2 [c8P3]
    (by decide)
  exact ⟨h.1, h.2.1,
    C8_retransmission_timer.1 1 2 3 4 [5] 6 true false false false false none⟩

/-! ## Claim C5 -/

/-- Neither `_originate` nor any machine output changes
`oldestUnackedSendSeqNum`, and `nextSendSeqNum` only grows. -/

theorem originate_una (ctx : Ctx) (d : List Nat) (s a f r : Bool) :
    (originate ctx d s a f r).conn.oldestUnackedSendSeqNum =
      ctx.conn.oldestUnackedSendSeqNum ∧
    ctx.conn.nextSendSeqNum ≤ (originate ctx d s a f r).conn.nextSendSeqNum := by
  unfold originate
  split
  · exact ⟨rfl, le_refl _⟩
  · dsimp only
    split
    · exact ⟨rfl, le_refl _⟩
    · split
      · split
        · exact ⟨rfl, Int.le_add_of_nonneg_right (Int.natCast_nonneg _)⟩
        · unfold writeBufferFullConn
          split
          · split <;> exact ⟨rfl, Int.le_add_of_nonneg_right (Int.natCast_nonneg _)⟩
          · exact ⟨rfl, Int.le_add_of_nonneg_right (Int.natCast_nonneg _)⟩
      · exact ⟨rfl, Int.le_add_of_nonneg_right (Int.natCast_nonneg _)⟩

/-- Machine outputs preserve `oldestUnackedSendSeqNum` and never shrink
`nextSendSeqNum`. -/
theorem applyOutput_una (ctx : Ctx) (o : TCPOutput) :
    (applyOutput ctx o).conn.oldestUnackedSendSeqNum =
      ctx.conn.oldestUnackedSendSeqNum ∧
    ctx.conn.nextSendSeqNum ≤ (applyOutput ctx o).conn.nextSendSeqNum := by
  cases o <;> simp only [applyOutput] <;> split
  all_goals first
    | exact originate_una _ _ _ _ _ _
    | (split <;> exact ⟨rfl, le_refl _⟩)
    | exact ⟨rfl, le_refl _⟩

/-- Output sequences preserve `oldestUnackedSendSeqNum` and never shrink
`nextSendSeqNum`. -/
theorem runOutputs_una (outs : List TCPOutput) :
    ∀ ctx : Ctx, (runOutputs ctx outs).conn.oldestUnackedSendSeqNum =
        ctx.conn.oldestUnackedSendSeqNum ∧
      ctx.conn.nextSendSeqNum ≤ (runOutputs ctx outs).conn.nextSendSeqNum := by
  induction outs with
  | nil => intro ctx; exact ⟨rfl, le_refl _⟩
  | cons o rest ih =>
    intro ctx
    obtain ⟨h1, h2⟩ := applyOutput_una ctx o
    obtain ⟨h3, h4⟩ := ih (applyOutput ctx o)
    exact ⟨h3.trans h1, le_trans h2 h4⟩

/-- Feeding any machine input preserves `oldestUnackedSendSeqNum` and never
shrinks `nextSendSeqNum`. -/
theorem feedInput_una (ctx : Ctx) (i : TCPInput) :
    (feedInput ctx i).conn.oldestUnackedSendSeqNum =
      ctx.conn.oldestUnackedSendSeqNum ∧
    ctx.conn.nextSendSeqNum ≤ (feedInput ctx i).conn.nextSendSeqNum := by
  unfold feedInput
  split
  · exact ⟨rfl, le_refl _⟩
  · dsimp only
    split
    · exact ⟨rfl, le_refl _⟩
    · exact runOutputs_una _ _


/-- The segment pipeline preserves `oldestUnackedSendSeqNum` and never
shrinks `nextSendSeqNum`. -/
theorem seg_una (ctx : Ctx) (p : PTCPPacket) :
    (connPacketReceivedSeg ctx p).conn.oldestUnackedSendSeqNum =
      ctx.conn.oldestUnackedSendSeqNum ∧
    ctx.conn.nextSendSeqNum ≤ (connPacketReceivedSeg ctx p).conn.nextSendSeqNum := by
  unfold connPacketReceivedSeg
  split
  · exact ⟨rfl, le_refl _⟩
  · dsimp only
    split
    · split <;> exact ⟨rfl, le_refl _⟩
    · split
      · exact ⟨rfl, le_refl _⟩
      · split
        · exact ⟨rfl, le_refl _⟩
        · repeat' split
          all_goals
            first
              | exact ⟨rfl, le_refl _⟩
              | exact ⟨(feedInput_una _ _).1, (feedInput_una _ _).2⟩
              | (refine ⟨(feedInput_una _ _).1.trans ?_,
                    le_trans ?_ (feedInput_una _ _).2⟩ <;>
                 first
                   | exact (feedInput_una _ _).1
                   | exact (feedInput_una _ _).2)

/-- ACK processing preserves the invariant: an acceptable ack moves
`oldestUnackedSendSeqNum` to a value at most `nextSendSeqNum`. -/
theorem ack_una (ctx : Ctx) (p : PTCPPacket) (h : UnaInv ctx.conn) :
    UnaInv (connPacketReceivedAck ctx p).conn := by
  unfold connPacketReceivedAck
  split
  · exact h
  · dsimp only
    split
    · rename_i hc
      have h2 : ackAcceptable ctx.conn.oldestUnackedSendSeqNum p.relativeAck
          ctx.conn.nextSendSeqNum = true := hc.2
      simp only [ackAcceptable, decide_eq_true_eq] at h2
      exact h2.2
    · obtain ⟨h1, h2⟩ := seg_una ctx p
      unfold UnaInv at h ⊢
      rw [h1]
      exact le_trans h h2

/-- ISN handling preserves the invariant. -/
theorem isn_una (ctx : Ctx) (p : PTCPPacket) (h : UnaInv ctx.conn) :
    UnaInv (connPacketReceivedIsn ctx p).conn := by
  unfold connPacketReceivedIsn
  dsimp only
  split
  · split
    · exact h
    · exact h
  · split
    · exact ack_una _ _ ((feedInput_una _ _).1.trans_le (h.trans (feedInput_una _ _).2))
    · exact ack_una _ _ h

/-- SYN handling preserves the invariant. -/
theorem syn_una (ctx : Ctx) (p : PTCPPacket) (h : UnaInv ctx.conn) :
    UnaInv (connPacketReceivedSyn ctx p).conn := by
  unfold connPacketReceivedSyn
  split
  · split
    · exact h
    · split
      · split
        · exact h
        · exact isn_una _ _ h
      · split
        · exact h
        · exact isn_una _ _ h
  · exact ack_una _ _ h

/-- `packetReceived` preserves the invariant. -/
theorem packet_una (c : PTCPConnection) (p : PTCPPacket) (h : UnaInv c) :
    UnaInv (connPacketReceived c p).conn := by
  unfold connPacketReceived
  split
  · dsimp only
    split <;> first | (split <;> exact h) | exact h
  · split
    · exact h
    · split
      · exact h
      · exact syn_una _ _ h

/-- Transport of the invariant along an unchanged
`oldestUnackedSendSeqNum` and a non-decreasing `nextSendSeqNum`. -/
theorem UnaInv.ofEqLe {c d : PTCPConnection}
    (h1 : d.oldestUnackedSendSeqNum = c.oldestUnackedSendSeqNum)
    (h2 : c.nextSendSeqNum ≤ d.nextSendSeqNum) (h : UnaInv c) : UnaInv d :=
  h1.trans_le (h.trans h2)

theorem originateOneData_una (ctx : Ctx) :
    (originateOneData ctx).conn.oldestUnackedSendSeqNum =
      ctx.conn.oldestUnackedSendSeqNum ∧
    ctx.conn.nextSendSeqNum ≤ (originateOneData ctx).conn.nextSendSeqNum := by
  unfold originateOneData
  split
  · exact ⟨rfl, le_refl _⟩
  · dsimp only
    exact ⟨(originate_una _ _ _ _ _ _).1, (originate_una _ _ _ _ _ _).2⟩

theorem reallyWriteLoop_una (fuel : Nat) : ∀ ctx : Ctx,
    (reallyWriteLoop ctx fuel).conn.oldestUnackedSendSeqNum =
      ctx.conn.oldestUnackedSendSeqNum ∧
    ctx.conn.nextSendSeqNum ≤ (reallyWriteLoop ctx fuel).conn.nextSendSeqNum := by
  induction fuel with
  | zero =>
    intro ctx
    unfold reallyWriteLoop
    split <;> exact ⟨rfl, le_refl _⟩
  | succ n ih =>
    intro ctx
    unfold reallyWriteLoop
    split
    · exact ⟨rfl, le_refl _⟩
    · split
      · split
        · exact ⟨rfl, le_refl _⟩
        · obtain ⟨a1, a2⟩ := originateOneData_una ctx
          obtain ⟨b1, b2⟩ := ih (originateOneData ctx)
          exact ⟨b1.trans a1, le_trans a2 b2⟩
      · exact ⟨rfl, le_refl _⟩

theorem reallyWrite_una (ctx : Ctx) :
    (reallyWrite ctx).conn.oldestUnackedSendSeqNum =
      ctx.conn.oldestUnackedSendSeqNum ∧
    ctx.conn.nextSendSeqNum ≤ (reallyWrite ctx).conn.nextSendSeqNum := by
  unfold reallyWrite
  dsimp only
  exact ⟨(reallyWriteLoop_una _ _).1, (reallyWriteLoop_una _ _).2⟩

theorem writeBufferEmptyC_una (ctx : Ctx) :
    (writeBufferEmptyC ctx).conn.oldestUnackedSendSeqNum =
      ctx.conn.oldestUnackedSendSeqNum ∧
    ctx.conn.nextSendSeqNum ≤ (writeBufferEmptyC ctx).conn.nextSendSeqNum := by
  unfold writeBufferEmptyC
  split
  · exact ⟨rfl, le_refl _⟩
  · dsimp only
    split
    · exact reallyWrite_una _
    · split
      · split <;> exact ⟨rfl, le_refl _⟩
      · split
        · exact feedInput_una _ _
        · exact ⟨rfl, le_refl _⟩

theorem loseConnection_una (ctx : Ctx) :
    (loseConnection ctx).conn.oldestUnackedSendSeqNum =
      ctx.conn.oldestUnackedSendSeqNum ∧
    ctx.conn.nextSendSeqNum ≤ (loseConnection ctx).conn.nextSendSeqNum := by
  unfold loseConnection
  split
  · exact ⟨rfl, le_refl _⟩
  · split
    · dsimp only
      split
      · exact ⟨(writeBufferEmptyC_una _).1, (writeBufferEmptyC_una _).2⟩
      · exact ⟨rfl, le_refl _⟩
    · exact ⟨rfl, le_refl _⟩

theorem connWrite_una (ctx : Ctx) (bytes : List Nat) :
    (connWrite ctx bytes).conn.oldestUnackedSendSeqNum =
      ctx.conn.oldestUnackedSendSeqNum ∧
    ctx.conn.nextSendSeqNum ≤ (connWrite ctx bytes).conn.nextSendSeqNum := by
  unfold connWrite
  split
  · exact ⟨rfl, le_refl _⟩
  · split <;> exact ⟨rfl, le_refl _⟩

theorem reallyRetransmit_una (c : PTCPConnection) :
    (reallyRetransmit c).conn.oldestUnackedSendSeqNum =
      c.oldestUnackedSendSeqNum ∧
    c.nextSendSeqNum ≤ (reallyRetransmit c).conn.nextSendSeqNum := by
  unfold reallyRetransmit
  dsimp only
  split
  · exact ⟨rfl, le_refl _⟩
  · split
    · exact ⟨(feedInput_una _ _).1, (feedInput_una _ _).2⟩
    · exact ⟨rfl, le_refl _⟩

theorem ackTimerFires_una (c : PTCPConnection) :
    (ackTimerFires c).conn.oldestUnackedSendSeqNum = c.oldestUnackedSendSeqNum ∧
    c.nextSendSeqNum ≤ (ackTimerFires c).conn.nextSendSeqNum := by
  unfold ackTimerFires
  exact ⟨(originate_una _ _ _ _ _ _).1, (originate_una _ _ _ _ _ _).2⟩

theorem timeWaitTimerFires_una (c : PTCPConnection) :
    (timeWaitTimerFires c).conn.oldestUnackedSendSeqNum = c.oldestUnackedSendSeqNum ∧
    c.nextSendSeqNum ≤ (timeWaitTimerFires c).conn.nextSendSeqNum := by
  unfold timeWaitTimerFires
  exact ⟨(feedInput_una _ _).1, (feedInput_una _ _).2⟩

theorem closeWaitLoseFires_una (c : PTCPConnection) :
    (closeWaitLoseFires c).conn.oldestUnackedSendSeqNum = c.oldestUnackedSendSeqNum ∧
    c.nextSendSeqNum ≤ (closeWaitLoseFires c).conn.nextSendSeqNum := by
  unfold closeWaitLoseFires
  exact ⟨(loseConnection_una _).1, (loseConnection_una _).2⟩

theorem nagleFires_una (c : PTCPConnection) :
    (nagleFires c).conn.oldestUnackedSendSeqNum = c.oldestUnackedSendSeqNum ∧
    c.nextSendSeqNum ≤ (nagleFires c).conn.nextSendSeqNum := by
  unfold nagleFires
  exact ⟨(reallyWrite_una _).1, (reallyWrite_una _).2⟩

theorem unregisterProducerC_una (c : PTCPConnection) :
    (unregisterProducerC c).conn.oldestUnackedSendSeqNum = c.oldestUnackedSendSeqNum ∧
    c.nextSendSeqNum ≤ (unregisterProducerC c).conn.nextSendSeqNum := by
  unfold unregisterProducerC
  dsimp only
  split
  · exact ⟨(writeBufferEmptyC_una _).1, (writeBufferEmptyC_una _).2⟩
  · exact ⟨rfl, le_refl _⟩

theorem registerProducerC_eq (c : PTCPConnection) (s : Bool) (d : PTCPConnection)
    (h : registerProducerC c s = some d) :
    d.oldestUnackedSendSeqNum = c.oldestUnackedSendSeqNum ∧
    d.nextSendSeqNum = c.nextSendSeqNum := by
  unfold registerProducerC at h
  split at h
  · exact absurd h (by simp)
  · split at h <;> (simp only [Option.some.injEq] at h; subst h; exact ⟨rfl, rfl⟩)

/-- Invariant (I2) holds in every reachable connection state. -/
theorem reachable_una (c : PTCPConnection) (h : ConnReachable c) : UnaInv c := by
  induction h with
  | activeOpen hp pp a =>
    exact (feedInput_una _ _).1.trans_le (feedInput_una _ _).2
  | passiveOpen hp pp a =>
    exact (feedInput_una _ _).1.trans_le (feedInput_una _ _).2
  | packet c p hc ih => exact packet_una c p ih
  | write c bytes hc ih =>
    exact UnaInv.ofEqLe (connWrite_una _ _).1 (connWrite_una _ _).2 ih
  | lose c hc ih =>
    exact UnaInv.ofEqLe (loseConnection_una _).1 (loseConnection_una _).2 ih
  | retransmitFire c hc harm ih =>
    exact UnaInv.ofEqLe (reallyRetransmit_una _).1 (reallyRetransmit_una _).2 ih
  | ackFire c hc harm ih =>
    exact UnaInv.ofEqLe (ackTimerFires_una _).1 (ackTimerFires_una _).2 ih
  | timeWaitFire c hc harm ih =>
    exact UnaInv.ofEqLe (timeWaitTimerFires_una _).1 (timeWaitTimerFires_una _).2 ih
  | closeWaitFire c hc harm ih =>
    exact UnaInv.ofEqLe (closeWaitLoseFires_una _).1 (closeWaitLoseFires_una _).2 ih
  | nagleFire c hc harm ih =>
    exact UnaInv.ofEqLe (nagleFires_una _).1 (nagleFires_una _).2 ih
  | pause c hc ih => exact ih
  | resume c hc ih => exact ih
  | register c c' streaming hc hr ih =>
    obtain ⟨e1, e2⟩ := registerProducerC_eq c streaming c' hr
    exact UnaInv.ofEqLe e1 e2.ge ih
  | unregister c hc ih =>
    exact UnaInv.ofEqLe (unregisterProducerC_una _).1 (unregisterProducerC_una _).2 ih


/-- The full effect of `packetReceived` on a non-STB, non-SYN packet with
an acceptable ACK hitting an unpaused connection: the cumulative-ack block
runs (draining the queue, growing the window, setting
`oldestUnackedSendSeqNum`), then `maybeReceiveAck` raises `AttributeError`,
retaining those mutations. -/
theorem packet_ack_block (c : PTCPConnection) (p : PTCPPacket)
    (h0 : p.stb = false) (h1 : c.paused = false) (h3 : p.syn = false)
    (h4 : p.ack = true)
    (h5 : ackAcceptable c.oldestUnackedSendSeqNum p.relativeAck c.nextSendSeqNum = true) :
    connPacketReceived c p =
      { conn := { c with
          retransmissionQueue :=
            c.retransmissionQueue.dropWhile (fullyAcked p.relativeAck),
          sendWindowRemaining := c.sendWindowRemaining +
            ((c.retransmissionQueue.takeWhile (fullyAcked p.relativeAck)).map
              (fun q => (q.segmentLength : Int))).sum,
          oldestUnackedSendSeqNum := p.relativeAck },
        err := some .attributeError } := by
  simp only [connPacketReceived, connPacketReceivedSyn, connPacketReceivedAck,
    h0, h1, h3, h4, h5, Bool.false_eq_true, if_false, false_and, and_true,
    true_and, and_self, ite_true, ite_false, Option.isSome_none, ne_eq]

/-- C5: for every connection and received packet reaching ACK processing
with an acceptable ack, `packetReceived` removes from the front of the
retransmission queue exactly the segments with
`relativeSeq + segmentLength <= relativeAck` (a `dropWhile` of the
fully-acked prefix), increases `sendWindowRemaining` by each removed
segment's `segmentLength`, and sets `oldestUnackedSendSeqNum` to the
packet's `relativeAck`; and in every reachable connection state
`oldestUnackedSendSeqNum ≤ nextSendSeqNum`. -/
theorem C5_cumulative_ack_and_una_invariant :
    (∀ (c : PTCPConnection) (p : PTCPPacket),
        p.stb = false → c.paused = false → p.syn = false → p.ack = true →
        ackAcceptable c.oldestUnackedSendSeqNum p.relativeAck c.nextSendSeqNum = true →
        (∀ q, fullyAcked p.relativeAck q =
            decide (q.relativeSeq + (q.segmentLength : Int) ≤ p.relativeAck)) ∧
        (connPacketReceived c p).conn.retransmissionQueue =
          c.retransmissionQueue.dropWhile (fullyAcked p.relativeAck) ∧
        (connPacketReceived c p).conn.sendWindowRemaining =
          c.sendWindowRemaining +
            ((c.retransmissionQueue.takeWhile (fullyAcked p.relativeAck)).map
              (fun q => (q.segmentLength : Int))).sum ∧
        (connPacketReceived c p).conn.oldestUnackedSendSeqNum = p.relativeAck) ∧
    (∀ c : PTCPConnection, ConnReachable c →
        c.oldestUnackedSendSeqNum ≤ c.nextSendSeqNum) := by
  constructor
  · intro c p h0 h1 h3 h4 h5
    have h := packet_ack_block c p h0 h1 h3 h4 h5
    rw [h]
    exact ⟨fun q => rfl, rfl, rfl, rfl⟩
  · exact fun c h => reachable_una c h

/-- C5 witness: the theorem applied to a concrete two-segment queue and a
concrete reachable state. -/
theorem C5_cumulative_ack_and_una_invariant_witness :
    (c5Pkt.stb = false ∧ c5Conn.paused = false ∧ c5Pkt.syn = false ∧
      c5Pkt.ack = true ∧
      ackAcceptable c5Conn.oldestUnackedSendSeqNum c5Pkt.relativeAck
        c5Conn.nextSendSeqNum = true) ∧
    (connPacketReceived c5Conn c5Pkt).conn.oldestUnackedSendSeqNum =
      c5Pkt.relativeAck ∧
    (connPacketReceived c5Conn c5Pkt).conn.retransmissionQueue =
      c5Conn.retransmissionQueue.dropWhile (fullyAcked c5Pkt.relativeAck) ∧
    (feedInput { conn := PTCPConnection.new 1 2 none }
        .appActiveOpen).conn.oldestUnackedSendSeqNum ≤
      (feedInput { conn := PTCPConnection.new 1 2 none }
        .appActiveOpen).conn.nextSendSeqNum :=
  ⟨⟨rfl, rfl, rfl, rfl, by decide⟩,
    (C5_cumulative_ack_and_una_invariant.1 c5Conn c5Pkt rfl rfl rfl rfl
      (by decide)).2.2.2,
    (C5_cumulative_ack_and_una_invariant.1 c5Conn c5Pkt rfl rfl rfl rfl
      (by decide)).2.1,
    C5_cumulative_ack_and_una_invariant.2 _ (ConnReachable.activeOpen 1 2 none)⟩

/-! ## Claim C9 -/

theorem originate_static (ctx : Ctx) (d : List Nat) (s a f r : Bool) :
    (originate ctx d s a f r).conn.machine = ctx.conn.machine ∧
    (originate ctx d s a f r).conn.disconnected = ctx.conn.disconnected ∧
    (originate ctx d s a f r).released = ctx.released := by
  unfold originate
  split
  · exact ⟨rfl, rfl, rfl⟩
  · dsimp only
    split
    · exact ⟨rfl, rfl, rfl⟩
    · split
      · split
        · exact ⟨rfl, rfl, rfl⟩
        · unfold writeBufferFullConn
          split
          · split <;> exact ⟨rfl, rfl, rfl⟩
          · exact ⟨rfl, rfl, rfl⟩
      · exact ⟨rfl, rfl, rfl⟩

theorem applyOutput_machine (ctx : Ctx) (o : TCPOutput) :
    (applyOutput ctx o).conn.machine = ctx.conn.machine := by
  cases o <;> simp only [applyOutput] <;> split
  all_goals first
    | exact (originate_static _ _ _ _ _ _).1
    | (split <;> rfl)
    | rfl

theorem runOutputs_machine (outs : List TCPOutput) : ∀ ctx : Ctx,
    (runOutputs ctx outs).conn.machine = ctx.conn.machine := by
  induction outs with
  | nil => intro ctx; rfl
  | cons o rest ih =>
    intro ctx
    exact (ih (applyOutput ctx o)).trans (applyOutput_machine ctx o)

theorem applyOutput_released_mono (ctx : Ctx) (o : TCPOutput)
    (h : ctx.released = true) : (applyOutput ctx o).released = true := by
  cases o <;> simp only [applyOutput] <;> split
  all_goals first
    | exact ((originate_static _ _ _ _ _ _).2.2).trans h
    | (split <;> exact h)
    | exact h
    | rfl

theorem runOutputs_released_mono (outs : List TCPOutput) : ∀ ctx : Ctx,
    ctx.released = true → (runOutputs ctx outs).released = true := by
  induction outs with
  | nil => intro ctx h; exact h
  | cons o rest ih =>
    intro ctx h
    exact ih (applyOutput ctx o) (applyOutput_released_mono ctx o h)

theorem apoDiscSendSyn (ctx : Ctx) :
    (applyOutput ctx .sendSyn).conn.disconnected = ctx.conn.disconnected := by
  simp only [applyOutput]
  split
  · rfl
  · exact (originate_static _ _ _ _ _ _).2.1

theorem apoDiscSendFin (ctx : Ctx) :
    (applyOutput ctx .sendFin).conn.disconnected = ctx.conn.disconnected := by
  simp only [applyOutput]
  split
  · rfl
  · exact (originate_static _ _ _ _ _ _).2.1

theorem apoDiscSendSynAck (ctx : Ctx) :
    (applyOutput ctx .sendSynAck).conn.disconnected = ctx.conn.disconnected := by
  simp only [applyOutput]
  split
  · rfl
  · exact (originate_static _ _ _ _ _ _).2.1

theorem apoDiscSendAck (ctx : Ctx) :
    (applyOutput ctx .sendAck).conn.disconnected = ctx.conn.disconnected := by
  simp only [applyOutput]
  split
  · rfl
  · exact (originate_static _ _ _ _ _ _).2.1

theorem apoDiscSendRst (ctx : Ctx) :
    (applyOutput ctx .sendRst).conn.disconnected = ctx.conn.disconnected := by
  simp only [applyOutput]
  split
  · rfl
  · exact (originate_static _ _ _ _ _ _).2.1

theorem apoDiscConnected (ctx : Ctx) :
    (applyOutput ctx .appNotifyConnected).conn.disconnected =
      ctx.conn.disconnected := by
  simp only [applyOutput]
  split
  · rfl
  · split <;> rfl

theorem apoDiscHalfClose (ctx : Ctx) :
    (applyOutput ctx .appNotifyHalfClose).conn.disconnected =
      ctx.conn.disconnected := by
  simp only [applyOutput]
  split <;> rfl

theorem apoDiscListen (ctx : Ctx) :
    (applyOutput ctx .appNotifyListen).conn.disconnected =
      ctx.conn.disconnected := by
  simp only [applyOutput]
  split <;> rfl

theorem apoDiscTimeWaiting (ctx : Ctx) :
    (applyOutput ctx .startTimeWaiting).conn.disconnected =
      ctx.conn.disconnected := by
  simp only [applyOutput]
  split <;> rfl

theorem apoDiscAttemptFailed (ctx : Ctx) :
    (applyOutput ctx .appNotifyAttemptFailed).conn.disconnected =
      ctx.conn.disconnected := by
  simp only [applyOutput]
  split <;> rfl

theorem releaseRun (ctx : Ctx) (h : ctx.err = none) :
    (applyOutput ctx .releaseResources).released = true := by
  simp [applyOutput, h]

theorem apoErrAttemptFailed (ctx : Ctx) (h : ctx.err = none) :
    (applyOutput ctx .appNotifyAttemptFailed).err = none := by
  simp [applyOutput, h]

theorem sendRst_err (ctx : Ctx) :
    (originate ctx [] false false false true).err = ctx.err := by
  unfold originate
  split
  · rfl
  · dsimp only
    rw [if_neg (by simp)]
    split
    · rename_i hmr
      simp [PTCPPacket.mustRetransmit, PTCPPacket.create, PTCPPacket.syn,
        PTCPPacket.fin, flagsOf] at hmr
      exact absurd rfl hmr
    · rfl

theorem apoErrSendRst (ctx : Ctx) (h : ctx.err = none) :
    (applyOutput ctx .sendRst).err = none := by
  simp only [applyOutput]
  split
  · exact h
  · exact (sendRst_err ctx).trans h

theorem apoErrDisconnected (ctx : Ctx) (h : ctx.err = none)
    (hd : ctx.conn.disconnected = false) :
    (applyOutput ctx .appNotifyDisconnected).err = none := by
  simp [applyOutput, h, hd]

theorem feedInput_good (ctx : Ctx) (i : TCPInput) (h : CtxInv ctx) :
    CtxInv (feedInput ctx i) := by
  unfold feedInput
  split
  · exact h
  · rename_i herr0
    have herr : ctx.err = none := by
      cases hq : ctx.err
      · rfl
      · exact absurd (by rw [hq]; rfl) herr0
    dsimp only
    rcases h with hrel | hgood
    · split
      · exact Or.inl hrel
      · exact Or.inl (runOutputs_released_mono _ _ hrel)
    · split
      · exact Or.inr hgood
      · rename_i si heq
        obtain ⟨st, outs⟩ := si
        cases hm : ctx.conn.machine <;> cases i <;>
          rw [hm] at heq <;>
          simp only [tcpTransition, Option.some.injEq, Prod.mk.injEq,
            reduceCtorEq] at heq <;>
          obtain ⟨h1, h2⟩ := heq <;> subst h1 <;> subst h2
        all_goals first
          | exact absurd hm hgood.1
          | (refine Or.inr ⟨?_, fun _ => ?_⟩ <;>
              simp only [runOutputs_machine] <;> decide)
          | (refine Or.inr ⟨?_, ?_⟩
             · simp only [runOutputs, applyOutput_machine]
               decide
             · simp only [runOutputs, apoDiscSendSyn, apoDiscSendFin,
                 apoDiscSendSynAck, apoDiscSendAck, apoDiscSendRst,
                 apoDiscConnected, apoDiscHalfClose, apoDiscListen,
                 apoDiscTimeWaiting, apoDiscAttemptFailed]
               intro hd
               exact absurd (hgood.2 hd) (by rw [hm]; decide))
          | (refine Or.inl ?_
             simp only [runOutputs]
             rw [releaseRun]
             exact herr)
          | (refine Or.inl ?_
             simp only [runOutputs]
             rw [releaseRun]
             exact apoErrAttemptFailed _ herr)
          | (refine Or.inl ?_
             simp only [runOutputs]
             rw [releaseRun]
             exact apoErrSendRst _ herr)
          | (refine Or.inl ?_
             have hd : ctx.conn.disconnected = false := by
               cases hq : ctx.conn.disconnected
               · rfl
               · exact absurd (hgood.2 hq) (by rw [hm]; decide)
             simp only [runOutputs]
             rw [releaseRun]
             exact apoErrDisconnected _ herr hd)

theorem CtxInv.ofStatic {x y : Ctx} (hm : y.conn.machine = x.conn.machine)
    (hd : y.conn.disconnected = x.conn.disconnected)
    (hr : y.released = x.released) (h : CtxInv x) : CtxInv y := by
  rcases h with h | h
  · exact Or.inl (hr.trans h)
  · refine Or.inr ⟨?_, ?_⟩
    · rw [hm]; exact h.1
    · intro hx
      rw [hm]
      exact h.2 (hd ▸ hx)

theorem originate_good (ctx : Ctx) (d : List Nat) (s a f r : Bool)
    (h : CtxInv ctx) : CtxInv (originate ctx d s a f r) :=
  CtxInv.ofStatic (originate_static ctx d s a f r).1
    (originate_static ctx d s a f r).2.1
    (originate_static ctx d s a f r).2.2 h

set_option maxHeartbeats 1600000 in
theorem seg_good (ctx : Ctx) (p : PTCPPacket) (h : CtxInv ctx) :
    CtxInv (connPacketReceivedSeg ctx p) := by
  unfold connPacketReceivedSeg
  split
  · exact h
  · dsimp only
    split
    · split <;> exact h
    · split
      · exact h
      · split
        · exact h
        · repeat' split
          all_goals first
            | exact feedInput_good _ _ (feedInput_good _ _ h)
            | exact feedInput_good _ _ h
            | exact h

theorem ack_good (ctx : Ctx) (p : PTCPPacket) (h : CtxInv ctx) :
    CtxInv (connPacketReceivedAck ctx p) := by
  unfold connPacketReceivedAck
  split
  · exact h
  · dsimp only
    split
    · exact h
    · exact seg_good _ _ h

theorem isn_good (ctx : Ctx) (p : PTCPPacket) (h : CtxInv ctx) :
    CtxInv (connPacketReceivedIsn ctx p) := by
  unfold connPacketReceivedIsn
  dsimp only
  split
  · split
    · exact h
    · exact h
  · split
    · exact ack_good _ _ (feedInput_good _ _ h)
    · exact ack_good _ _ h

theorem syn_good (ctx : Ctx) (p : PTCPPacket) (h : CtxInv ctx) :
    CtxInv (connPacketReceivedSyn ctx p) := by
  unfold connPacketReceivedSyn
  split
  · split
    · exact h
    · split
      · split
        · exact h
        · exact isn_good _ _ h
      · split
        · exact h
        · exact isn_good _ _ h
  · exact ack_good _ _ h

theorem packet_good (c : PTCPConnection) (p : PTCPPacket) (h : GoodConn c) :
    CtxInv (connPacketReceived c p) := by
  unfold connPacketReceived
  split
  · dsimp only
    split <;> first | (split <;> exact Or.inr h) | exact Or.inr h
  · split
    · exact Or.inr h
    · split
      · exact Or.inr h
      · exact syn_good _ _ (Or.inr h)

theorem originateOneData_good (ctx : Ctx) (h : CtxInv ctx) :
    CtxInv (originateOneData ctx) := by
  unfold originateOneData
  split
  · exact h
  · dsimp only
    exact originate_good _ _ _ _ _ _ h

theorem reallyWriteLoop_good (fuel : Nat) : ∀ ctx : Ctx, CtxInv ctx →
    CtxInv (reallyWriteLoop ctx fuel) := by
  induction fuel with
  | zero =>
    intro ctx h
    unfold reallyWriteLoop
    split <;> exact h
  | succ n ih =>
    intro ctx h
    unfold reallyWriteLoop
    split
    · exact h
    · split
      · split
        · exact h
        · exact ih _ (originateOneData_good ctx h)
      · exact h

theorem reallyWrite_good (ctx : Ctx) (h : CtxInv ctx) :
    CtxInv (reallyWrite ctx) := by
  unfold reallyWrite
  dsimp only
  exact reallyWriteLoop_good _ _ h

theorem writeBufferEmptyC_good (ctx : Ctx) (h : CtxInv ctx) :
    CtxInv (writeBufferEmptyC ctx) := by
  unfold writeBufferEmptyC
  split
  · exact h
  · dsimp only
    split
    · exact reallyWrite_good _ h
    · split
      · split <;> exact h
      · split
        · exact feedInput_good _ _ h
        · exact h

theorem loseConnection_good (ctx : Ctx) (h : CtxInv ctx) :
    CtxInv (loseConnection ctx) := by
  unfold loseConnection
  split
  · exact h
  · split
    · dsimp only
      split
      · exact writeBufferEmptyC_good _ h
      · exact h
    · exact h

theorem connWrite_good (ctx : Ctx) (bytes : List Nat) (h : CtxInv ctx) :
    CtxInv (connWrite ctx bytes) := by
  unfold connWrite
  split
  · exact h
  · split <;> exact h

theorem reallyRetransmit_good (c : PTCPConnection) (h : GoodConn c) :
    CtxInv (reallyRetransmit c) := by
  unfold reallyRetransmit
  dsimp only
  split
  · exact Or.inr h
  · split
    · exact feedInput_good _ _ (Or.inr h)
    · exact Or.inr h

theorem ackTimerFires_good (c : PTCPConnection) (h : GoodConn c) :
    CtxInv (ackTimerFires c) := by
  unfold ackTimerFires
  exact originate_good _ _ _ _ _ _ (Or.inr h)

theorem timeWaitTimerFires_good (c : PTCPConnection) (h : GoodConn c) :
    CtxInv (timeWaitTimerFires c) := by
  unfold timeWaitTimerFires
  exact feedInput_good _ _ (Or.inr h)

theorem closeWaitLoseFires_good (c : PTCPConnection) (h : GoodConn c) :
    CtxInv (closeWaitLoseFires c) := by
  unfold closeWaitLoseFires
  exact loseConnection_good _ (Or.inr h)

theorem nagleFires_good (c : PTCPConnection) (h : GoodConn c) :
    CtxInv (nagleFires c) := by
  unfold nagleFires
  exact reallyWrite_good _ (Or.inr h)

theorem mlookup_good (m : List (MuxKey × PTCPConnection)) (k : MuxKey)
    (c : PTCPConnection) (h : ∀ e ∈ m, GoodConn e.2)
    (hl : mlookup m k = some c) : GoodConn c := by
  induction m with
  | nil => exact absurd hl (by simp [mlookup])
  | cons e rest ih =>
    unfold mlookup at hl
    split at hl
    · cases hl
      exact h e (List.mem_cons_self e rest)
    · exact ih (fun x hx => h x (List.mem_cons_of_mem e hx)) hl

theorem minsert_mem (m : List (MuxKey × PTCPConnection)) (k : MuxKey)
    (c : PTCPConnection) : ∀ e ∈ minsert m k c, e ∈ m ∨ e = (k, c) := by
  induction m with
  | nil =>
    intro e he
    simp [minsert] at he
    exact Or.inr he
  | cons x rest ih =>
    intro e he
    unfold minsert at he
    split at he
    · rcases List.mem_cons.mp he with h1 | h1
      · exact Or.inr h1
      · exact Or.inl (List.mem_cons_of_mem x h1)
    · rcases List.mem_cons.mp he with h1 | h1
      · exact Or.inl (h1 ▸ List.mem_cons_self x rest)
      · rcases ih e h1 with h2 | h2
        · exact Or.inl (List.mem_cons_of_mem x h2)
        · exact Or.inr h2

theorem merase_mem (m : List (MuxKey × PTCPConnection)) (k : MuxKey) :
    ∀ e ∈ merase m k, e ∈ m := by
  induction m with
  | nil => intro e he; exact absurd he (by simp [merase])
  | cons x rest ih =>
    intro e he
    unfold merase at he
    split at he
    · exact List.mem_cons_of_mem x he
    · rcases List.mem_cons.mp he with h1 | h1
      · exact h1 ▸ List.mem_cons_self x rest
      · exact List.mem_cons_of_mem x (ih e h1)

theorem muxConnectionClosedUpd_conns (m : PTCP) :
    (muxConnectionClosedUpd m).connections = m.connections := by
  unfold muxConnectionClosedUpd
  split <;> rfl

theorem muxDeliver_good (m : PTCP) (key : MuxKey) (c : PTCPConnection)
    (p : PTCPPacket) (h : MuxInv m) (hc : GoodConn c) :
    MuxInv (muxDeliver m key c p).mux := by
  have hctx := packet_good c p hc
  intro e he
  unfold muxDeliver at he
  dsimp only at he
  by_cases hrel : (connPacketReceived c p).released = true
  · simp only [hrel, eq_self_iff_true, if_true, muxConnectionClosedUpd_conns] at he
    split at he
    · exact h e (merase_mem _ _ _ (merase_mem _ _ _ he))
    · exact h e (merase_mem _ _ _ he)
  · have hrel2 := hrel
    rw [Bool.not_eq_true] at hrel2
    simp only [hrel2, Bool.false_eq_true, if_false] at he
    split at he
    · rcases minsert_mem _ _ _ e (merase_mem _ _ _ he) with h1 | h1
      · exact h e h1
      · rw [h1]
        exact hctx.resolve_left hrel
    · rcases minsert_mem _ _ _ e he with h1 | h1
      · exact h e h1
      · rw [h1]
        exact hctx.resolve_left hrel

theorem passiveOpen_good (hp pp : Nat) (a : Option Addr) :
    GoodConn (feedInput { conn := PTCPConnection.new hp pp a }
      .appPassiveOpen).conn := by
  unfold feedInput
  rw [if_neg (by simp)]
  dsimp only [PTCPConnection.new, tcpTransition]
  constructor
  · intro hx
    rw [runOutputs_machine] at hx
    exact TCPState.noConfusion hx
  · intro hd
    simp only [runOutputs, apoDiscListen] at hd
    exact Bool.noConfusion hd

theorem activeOpen_good (hp pp : Nat) (a : Option Addr) :
    GoodConn (feedInput { conn := PTCPConnection.new hp pp a }
      .appActiveOpen).conn := by
  unfold feedInput
  rw [if_neg (by simp)]
  dsimp only [PTCPConnection.new, tcpTransition]
  constructor
  · intro hx
    rw [runOutputs_machine] at hx
    exact TCPState.noConfusion hx
  · intro hd
    simp only [runOutputs, apoDiscSendSyn] at hd
    exact Bool.noConfusion hd

theorem muxPacketReceived_good (m : PTCP) (p : PTCPPacket) (h : MuxInv m) :
    MuxInv (muxPacketReceived m p).mux := by
  unfold muxPacketReceived
  dsimp only
  split
  · exact muxDeliver_good _ _ _ _ h (mlookup_good _ _ _ h (by assumption))
  · split
    · split
      · exact h
      · refine muxDeliver_good _ _ _ _ ?_ (passiveOpen_good _ _ _)
        intro e he
        dsimp only at he
        rcases minsert_mem _ _ _ e he with h1 | h1
        · exact h e h1
        · rw [h1]
          exact passiveOpen_good _ _ _
    · exact h

theorem muxDatagramReceived_good (m : PTCP) (bytes : List Nat) (addr : Addr)
    (h : MuxInv m) : MuxInv (muxDatagramReceived m bytes addr).mux := by
  unfold muxDatagramReceived
  split
  · exact h
  · split
    · exact h
    · split
      · split
        · exact h
        · exact h
      · exact h
      · exact h
      · exact muxPacketReceived_good _ _ h

theorem muxConnect_good (m : PTCP) (host : String) (port : Nat)
    (h : MuxInv m) : MuxInv (muxConnect m host port).mux := by
  unfold muxConnect
  dsimp only
  intro e he
  rcases minsert_mem _ _ _ e he with h1 | h1
  · exact h e h1
  · rw [h1]
    exact activeOpen_good _ _ _

theorem muxConnOp_good (m : PTCP) (key : MuxKey) (op : PTCPConnection → Ctx)
    (hop : ∀ c, GoodConn c → CtxInv (op c)) (h : MuxInv m) :
    MuxInv (muxConnOp m key op).mux := by
  unfold muxConnOp
  dsimp only
  split
  · exact h
  · rename_i c hl
    have hc := mlookup_good _ _ _ h hl
    have hctx := hop c hc
    intro e he
    by_cases hrel : (op c).released = true
    · simp only [hrel, eq_self_iff_true, if_true, muxConnectionClosedUpd_conns] at he
      exact h e (merase_mem _ _ _ he)
    · have hrel2 := hrel
      rw [Bool.not_eq_true] at hrel2
      simp only [hrel2, Bool.false_eq_true, if_false] at he
      rcases minsert_mem _ _ _ e he with h1 | h1
      · exact h e h1
      · rw [h1]
        exact hctx.resolve_left hrel

theorem mux_reachable_good (m : PTCP) (h : MuxReachable m) : MuxInv m := by
  induction h with
  | init f => intro e he; exact absurd he (by simp [muxInit])
  | datagram m bytes addr hm ih => exact muxDatagramReceived_good m bytes addr ih
  | connect m host port hm ih => exact muxConnect_good m host port ih
  | retransmitFire m key c hm hl harm ih =>
    exact muxConnOp_good m key _ (fun c hc => reallyRetransmit_good c hc) ih
  | ackFire m key c hm hl harm ih =>
    exact muxConnOp_good m key _ (fun c hc => ackTimerFires_good c hc) ih
  | timeWaitFire m key c hm hl harm ih =>
    exact muxConnOp_good m key _ (fun c hc => timeWaitTimerFires_good c hc) ih
  | closeWaitFire m key c hm hl harm ih =>
    exact muxConnOp_good m key _ (fun c hc => closeWaitLoseFires_good c hc) ih
  | nagleFire m key c hm hl harm ih =>
    exact muxConnOp_good m key _ (fun c hc => nagleFires_good c hc) ih
  | appLose m key hm ih =>
    exact muxConnOp_good m key _
      (fun c hc => loseConnection_good _ (Or.inr hc)) ih
  | appWrite m key bytes hm ih =>
    exact muxConnOp_good m key _
      (fun c hc => connWrite_good _ _ (Or.inr hc)) ih

/-- C9 (counterexample): a bare SYN to pseudo-port 1 creates a mapped
connection in SynRcvd; a following SYN-with-data raises `BadPacketError`
inside `packetReceived`, whose `except` clause then deletes the connection
from the map even though its machine is still SynRcvd (not Closed) and
`connectionClosed` never ran — refuting both directions of the claimed
iff-with-removal property. -/
theorem C9_map_terminal_iff_refuted :
    MuxReachable c9M1 ∧ MuxReachable c9M2 ∧
    mlookup c9M1.connections c9Key = some c9Conn1 ∧
    c9Conn1.machine = TCPState.synRcvd ∧
    mlookup c9M2.connections c9Key = none ∧
    (connPacketReceived c9Conn1 c9Pkt2).err = some PErr.badPacket ∧
    (connPacketReceived c9Conn1 c9Pkt2).released = false ∧
    (connPacketReceived c9Conn1 c9Pkt2).conn.machine = TCPState.synRcvd :=
  ⟨MuxReachable.datagram _ _ _ (MuxReachable.init true),
   MuxReachable.datagram _ _ _
     (MuxReachable.datagram _ _ _ (MuxReachable.init true)),
   by decide, by decide, by decide, by decide, by decide, by decide⟩

/-- C9 (amended): in every multiplexer state reachable by datagram
arrivals, timer firings and application calls, every connection present in
the connection map has a machine that is not in the terminal Closed state
(the forward direction of (I4)); the converse — that removal only happens
in Closed — fails, because the `except` clause of `PTCP.packetReceived`
deletes a connection whose delivery raised. -/
theorem C9_mapped_connection_never_closed :
    ∀ m : PTCP, MuxReachable m → ∀ (key : MuxKey) (c : PTCPConnection),
      mlookup m.connections key = some c → c.machine ≠ TCPState.closed :=
  fun m hm key c hl => (mlookup_good _ _ _ (mux_reachable_good m hm) hl).1

/-- C9 witness: the amended theorem applied to the concrete reachable
state `c9M1` and its mapped SynRcvd connection. -/
theorem C9_mapped_connection_never_closed_witness :
    mlookup c9M1.connections c9Key = some c9Conn1 ∧
    c9Conn1.machine ≠ TCPState.closed :=
  ⟨by decide,
   C9_mapped_connection_never_closed c9M1
     (MuxReachable.datagram _ _ _ (MuxReachable.init true)) c9Key c9Conn1
     (by decide)⟩

/-! ## Claims C4 and C10 -/

/-- C4 (counterexample): the round trip is not the identity on every
non-peer-address field — `encode` recomputes the checksum, so a packet whose
stored checksum (1) is not the CRC-32 of its data (0 for the empty payload)
comes back with a different checksum field even though its `dlen` is
valid. -/
theorem C4_roundtrip_refuted :
    c4pkt.dlen = c4pkt.data.length ∧
    ((c4pkt.encode.bind fun bs => PTCPPacket.decode bs (some ("h", 1))).map
      PTCPPacket.checksum) = some 0 ∧
    c4pkt.checksum = 1 := by
  decide

/-- C4 (amended): for every packet with a valid `dlen` and
wire-representable fields, decoding the encoding reproduces every wire field
and the payload exactly, with the peer-address field replaced by the
receiving address — except that the checksum field comes back as the CRC-32
of the data, which equals the stored checksum exactly when the stored
checksum was itself valid. -/
theorem C4_decode_encode_roundtrip (p : PTCPPacket) (a : Addr)
    (hdlen : p.dlen = p.data.length)
    (hsp : p.sourcePseudoPort < 2 ^ 16) (hdp : p.destPseudoPort < 2 ^ 16)
    (hseq : p.seqNum < 2 ^ 32) (hack : p.ackNum < 2 ^ 32) (hwin : p.window < 2 ^ 32)
    (hfl : p.flags < 2 ^ 8) (hlen : p.data.length < 2 ^ 16)
    (hbytes : ∀ b ∈ p.data, b < 2 ^ 8) :
    ∃ bs q, p.encode = some bs ∧ PTCPPacket.decode bs (some a) = some q ∧
      q.sourcePseudoPort = p.sourcePseudoPort ∧
      q.destPseudoPort = p.destPseudoPort ∧
      q.seqNum = p.seqNum ∧ q.ackNum = p.ackNum ∧ q.window = p.window ∧
      q.flags = p.flags ∧ q.dlen = p.dlen ∧ q.data = p.data ∧
      q.peerAddressTuple = some a ∧
      q.checksum = crc32 p.data ∧
      (p.checksum = crc32 p.data → q.checksum = p.checksum) := by
  obtain ⟨bs, henc, hdec⟩ := decode_encode p a hsp hdp hseq hack hwin hfl hlen hbytes
  exact ⟨bs, _, henc, hdec, rfl, rfl, rfl, rfl, rfl, rfl, hdlen.symm, rfl, rfl,
    rfl, fun h => h.symm⟩

/-- C4 witness: the amended round trip at a concrete packet whose stored
checksum is valid. -/
theorem C4_decode_encode_roundtrip_witness :
    ∃ bs q, c4okPkt.encode = some bs ∧
      PTCPPacket.decode bs (some ("h", 1)) = some q ∧
      q.sourcePseudoPort = c4okPkt.sourcePseudoPort ∧
      q.destPseudoPort = c4okPkt.destPseudoPort ∧
      q.seqNum = c4okPkt.seqNum ∧ q.ackNum = c4okPkt.ackNum ∧
      q.window = c4okPkt.window ∧
      q.flags = c4okPkt.flags ∧ q.dlen = c4okPkt.dlen ∧ q.data = c4okPkt.data ∧
      q.peerAddressTuple = some ("h", 1) ∧
      q.checksum = crc32 c4okPkt.data ∧
      (c4okPkt.checksum = crc32 c4okPkt.data → q.checksum = c4okPkt.checksum) :=
  C4_decode_encode_roundtrip c4okPkt ("h", 1) (by decide) (by decide) (by decide)
    (by decide) (by decide) (by decide) (by decide) (by decide) (by decide)

/-- C10: `encode` ignores the stored `dlen` and `checksum` fields, always
writing `dlen = len(data)` and `checksum = crc32(data)` to the wire, so for
any packet with wire-representable packed fields — even one whose stored
`dlen` or checksum disagrees with its data — the decoded image of its
encoding passes `verifyChecksum` without raising. -/
theorem C10_encode_recomputes_dlen_checksum (p : PTCPPacket) (a : Addr)
    (hsp : p.sourcePseudoPort < 2 ^ 16) (hdp : p.destPseudoPort < 2 ^ 16)
    (hseq : p.seqNum < 2 ^ 32) (hack : p.ackNum < 2 ^ 32) (hwin : p.window < 2 ^ 32)
    (hfl : p.flags < 2 ^ 8) (hlen : p.data.length < 2 ^ 16)
    (hbytes : ∀ b ∈ p.data, b < 2 ^ 8) :
    ∃ bs q, p.encode = some bs ∧ PTCPPacket.decode bs (some a) = some q ∧
      q.dlen = p.data.length ∧ q.checksum = crc32 p.data ∧ q.data = p.data ∧
      q.verifyChecksum = none := by
  obtain ⟨bs, henc, hdec⟩ := decode_encode p a hsp hdp hseq hack hwin hfl hlen hbytes
  refine ⟨bs, _, henc, hdec, rfl, rfl, rfl, ?_⟩
  simp [PTCPPacket.verifyChecksum, PTCPPacket.computeChecksum]

/-- C10 witness: a packet whose stored `dlen` (999) and checksum (77) are
both wrong still round-trips to a packet that verifies. -/
theorem C10_encode_recomputes_dlen_checksum_witness :
    c10pkt.dlen ≠ c10pkt.data.length ∧ c10pkt.checksum ≠ crc32 c10pkt.data ∧
    ∃ bs q, c10pkt.encode = some bs ∧
      PTCPPacket.decode bs (some ("h", 1)) = some q ∧
      q.dlen = c10pkt.data.length ∧ q.checksum = crc32 c10pkt.data ∧
      q.data = c10pkt.data ∧ q.verifyChecksum = none :=
  ⟨by decide, by decide,
    C10_encode_recomputes_dlen_checksum c10pkt ("h", 1) (by decide) (by decide)
      (by decide) (by decide) (by decide) (by decide) (by decide) (by decide)⟩


/-! ## Claim C6 -/

theorem chunksPos_flatten (cs : Nat) (hcs : 0 < cs) (data : List Nat) :
    (chunksPos data cs).flatten = data := by
  suffices H : ∀ (n : Nat) (data : List Nat), data.length = n →
      (chunksPos data cs).flatten = data from H data.length data rfl
  intro n
  induction n using Nat.strong_induction_on with
  | _ n ih =>
    intro data hL
    unfold chunksPos
    split
    next h =>
      rcases h with h | h
      · simp [h]
      · omega
    next h =>
      simp only [not_or] at h
      have hlen : (data.drop cs).length < data.length := by
        have : data.length ≠ 0 := by simpa [List.length_eq_zero] using h.1
        simp only [List.length_drop]
        omega
      simp only [List.flatten_cons]
      rw [ih (data.drop cs).length (by omega) (data.drop cs) rfl]
      exact List.take_append_drop cs data

theorem chunksPos_length_le (cs : Nat) (data : List Nat) :
    ∀ chunk ∈ chunksPos data cs, chunk.length ≤ cs := by
  suffices H : ∀ (n : Nat) (data : List Nat), data.length = n →
      ∀ chunk ∈ chunksPos data cs, chunk.length ≤ cs from H data.length data rfl
  intro n
  induction n using Nat.strong_induction_on with
  | _ n ih =>
    intro data hL
    unfold chunksPos
    split
    · simp
    next h =>
      simp only [not_or] at h
      intro chunk hc
      rcases List.mem_cons.mp hc with rfl | hc
      · simp only [List.length_take]
        omega
      · have hlen : (data.drop cs).length < data.length := by
          have : data.length ≠ 0 := by simpa [List.length_eq_zero] using h.1
          simp only [List.length_drop]
          omega
        exact ih (data.drop cs).length (by omega) (data.drop cs) rfl chunk hc

theorem fragmentChildren_map_data (p : PTCPPacket) :
    ∀ (chunks : List (List Nat)) (o : Nat),
      (p.fragmentChildren chunks o).map PTCPPacket.data = chunks := by
  intro chunks
  induction chunks with
  | nil => intro o; rfl
  | cons c rest ih =>
    intro o
    simp only [PTCPPacket.fragmentChildren, List.map_cons, ih]
    rfl

theorem fragmentChildren_get (p : PTCPPacket) :
    ∀ (chunks : List (List Nat)) (o i : Nat)
      (h : i < (p.fragmentChildren chunks o).length) (h' : i < chunks.length),
      (p.fragmentChildren chunks o).get ⟨i, h⟩ =
        PTCPPacket.create p.sourcePseudoPort p.destPseudoPort
          (p.seqNum + o + (((chunks.take i).map List.length).sum)) p.ackNum
          (chunks.get ⟨i, h'⟩) p.window false p.ack false false false
          p.destination := by
  intro chunks
  induction chunks with
  | nil => intro o i h h'; exact absurd h' (by simp)
  | cons c rest ih =>
    intro o i h h'
    cases i with
    | zero => simp [PTCPPacket.fragmentChildren]
    | succ j =>
      have hj : j < (p.fragmentChildren rest (o + c.length)).length := by
        simpa [PTCPPacket.fragmentChildren] using h
      have hj' : j < rest.length := by simpa using h'
      have heq := ih (o + c.length) j hj hj'
      have hsum : p.seqNum + (o + c.length) + ((rest.take j).map List.length).sum =
          p.seqNum + o + (((c :: rest).take (j + 1)).map List.length).sum := by
        simp only [List.take_succ_cons, List.map_cons, List.sum_cons]
        omega
      show (p.fragmentChildren rest (o + c.length)).get ⟨j, hj⟩ = _
      rw [heq, hsum]
      simp


theorem setFinTrue_child (sp dp sn an : Nat) (d : List Nat) (w : Nat) (a : Bool)
    (dst : Option Addr) :
    (setFinTrue (PTCPPacket.create sp dp sn an d w false a false false false dst)).fin = true ∧
    (setFinTrue (PTCPPacket.create sp dp sn an d w false a false false false dst)).ack = a ∧
    (setFinTrue (PTCPPacket.create sp dp sn an d w false a false false false dst)).seqNum = sn ∧
    (setFinTrue (PTCPPacket.create sp dp sn an d w false a false false false dst)).dlen = d.length ∧
    (setFinTrue (PTCPPacket.create sp dp sn an d w false a false false false dst)).data = d := by
  cases a <;>
    simp [setFinTrue, PTCPPacket.create, flagsOf, PTCPPacket.fin, PTCPPacket.ack] <;>
    decide

theorem fragmentChildren_mem (p : PTCPPacket) :
    ∀ (chunks : List (List Nat)) (o : Nat), ∀ q ∈ p.fragmentChildren chunks o,
      q.fin = false ∧ q.ack = p.ack := by
  intro chunks
  induction chunks with
  | nil => intro o q hq; exact absurd hq (by simp [PTCPPacket.fragmentChildren])
  | cons c rest ih =>
    intro o q hq
    rcases List.mem_cons.mp hq with rfl | hq
    · exact ⟨(create_flags _ _ _ _ _ _ _ _ _ _ _ _).2.2.1,
        (create_flags _ _ _ _ _ _ _ _ _ _ _ _).2.1⟩
    · exact ih (o + c.length) q hq

/-- C6 (amended): for every non-SYN packet whose `dlen` agrees with its
payload and every positive mtu, `fragment` returns the packet unchanged when
`dlen < mtu`, and otherwise returns a non-empty child list whose payloads
concatenate to exactly the original data, whose sequence numbers are the
original `seqNum` offset by the cumulative length of the preceding chunks,
each child with `dlen <= mtu` and the original ack flag, and with FIN on
exactly the final child iff the original had FIN. -/
theorem C6_fragment_spec (p : PTCPPacket) (mtu : Nat)
    (hsyn : p.syn = false) (hmtu : 0 < mtu) (hdlen : p.dlen = p.data.length) :
    (p.dlen < mtu → p.fragment mtu = some [p]) ∧
    (¬p.dlen < mtu → ∃ cs, p.fragment mtu = some cs ∧
      (cs.map PTCPPacket.data).flatten = p.data ∧
      cs ≠ [] ∧
      (∀ (i : Nat) (h : i < cs.length),
        (cs.get ⟨i, h⟩).seqNum =
          p.seqNum + (((cs.map PTCPPacket.data).take i).map List.length).sum ∧
        (cs.get ⟨i, h⟩).dlen ≤ mtu ∧
        (cs.get ⟨i, h⟩).ack = p.ack) ∧
      cs.countP PTCPPacket.fin = (if p.fin then 1 else 0) ∧
      (∀ h : cs ≠ [], (cs.getLast h).fin = p.fin)) := by
  constructor
  · intro hlt
    unfold PTCPPacket.fragment
    rw [if_pos hlt]
  · intro hge
    have hdata : p.data ≠ [] := by
      intro hnil
      rw [hnil] at hdlen
      simp at hdlen
      omega
    unfold PTCPPacket.fragment
    rw [if_neg hge, if_neg (by simp [hsyn])]
    unfold iterchunks
    rw [if_neg (by omega)]
    have hflat : (chunksPos p.data mtu).flatten = p.data :=
      chunksPos_flatten mtu hmtu p.data
    have hchne : chunksPos p.data mtu ≠ [] := by
      intro h
      rw [h] at hflat
      exact hdata hflat.symm
    have hmapdata : (p.fragmentChildren (chunksPos p.data mtu) 0).map PTCPPacket.data =
        chunksPos p.data mtu := fragmentChildren_map_data p _ 0
    have hLlen : (p.fragmentChildren (chunksPos p.data mtu) 0).length =
        (chunksPos p.data mtu).length := by
      simpa using congrArg List.length hmapdata
    have hLne : p.fragmentChildren (chunksPos p.data mtu) 0 ≠ [] := by
      intro h
      rw [h] at hmapdata
      exact hchne hmapdata.symm
    -- every child is the `create` of its chunk
    have hget : ∀ (i : Nat) (h : i < (p.fragmentChildren (chunksPos p.data mtu) 0).length),
        (p.fragmentChildren (chunksPos p.data mtu) 0).get ⟨i, h⟩ =
          PTCPPacket.create p.sourcePseudoPort p.destPseudoPort
            (p.seqNum + (((chunksPos p.data mtu).take i).map List.length).sum) p.ackNum
            ((chunksPos p.data mtu).get ⟨i, by omega⟩) p.window false p.ack false false
            false p.destination := by
      intro i h
      have := fragmentChildren_get p (chunksPos p.data mtu) 0 i h (by omega)
      rw [this]
      simp only [Nat.zero_add, Nat.add_zero]
    have hchunklen : ∀ (i : Nat) (h : i < (chunksPos p.data mtu).length),
        ((chunksPos p.data mtu).get ⟨i, h⟩).length ≤ mtu :=
      fun i h => chunksPos_length_le mtu p.data _ (List.get_mem _ _ _)
    by_cases hfin : p.fin = true
    · simp only [hfin, if_true]
      rw [List.getLast?_eq_getLast _ hLne]
      have hlastget : ∀ hL : (p.fragmentChildren (chunksPos p.data mtu) 0).length - 1 <
          (p.fragmentChildren (chunksPos p.data mtu) 0).length,
          (p.fragmentChildren (chunksPos p.data mtu) 0).getLast hLne =
            (p.fragmentChildren (chunksPos p.data mtu) 0).get
              ⟨(p.fragmentChildren (chunksPos p.data mtu) 0).length - 1, hL⟩ := by
        intro hL
        rw [List.getLast_eq_getElem _ hLne]
        simp [List.get_eq_getElem]
      have hLpos : 0 < (p.fragmentChildren (chunksPos p.data mtu) 0).length := by
        cases hL : p.fragmentChildren (chunksPos p.data mtu) 0 with
        | nil => exact absurd hL hLne
        | cons x xs => simp
      have hlast := hlastget (by omega)
      rw [hget _ (by omega)] at hlast
      -- the data of the modified last child is the last chunk
      have hsdata : (setFinTrue ((p.fragmentChildren (chunksPos p.data mtu) 0).getLast hLne)).data =
          ((p.fragmentChildren (chunksPos p.data mtu) 0).getLast hLne).data := rfl
      have h1 : ((p.fragmentChildren (chunksPos p.data mtu) 0).dropLast ++
          [(p.fragmentChildren (chunksPos p.data mtu) 0).getLast hLne]).map PTCPPacket.data =
          chunksPos p.data mtu := by
        rw [List.dropLast_append_getLast hLne]
        exact hmapdata
      rw [List.map_append] at h1
      simp only [List.map_cons, List.map_nil] at h1
      have hmap' : (((p.fragmentChildren (chunksPos p.data mtu) 0).dropLast ++
          [setFinTrue ((p.fragmentChildren (chunksPos p.data mtu) 0).getLast hLne)]).map
            PTCPPacket.data) = chunksPos p.data mtu := by
        rw [List.map_append]
        simp only [List.map_cons, List.map_nil, hsdata]
        exact h1
      have hdlmem : ∀ q ∈ (p.fragmentChildren (chunksPos p.data mtu) 0).dropLast,
          q.fin = false ∧ q.ack = p.ack := by
        intro q hq
        refine fragmentChildren_mem p (chunksPos p.data mtu) 0 q ?_
        rw [← List.dropLast_append_getLast hLne]
        exact List.mem_append_left _ hq
      have hcs'len : ((p.fragmentChildren (chunksPos p.data mtu) 0).dropLast ++
          [setFinTrue ((p.fragmentChildren (chunksPos p.data mtu) 0).getLast hLne)]).length =
          (p.fragmentChildren (chunksPos p.data mtu) 0).length := by
        simp only [List.length_append, List.length_dropLast, List.length_cons,
          List.length_nil]
        omega
      refine ⟨_, rfl, ?_, by simp, ?_, ?_, ?_⟩
      · rw [hmap']
        exact hflat
      · intro i h
        rw [hmap']
        by_cases hi : i < (p.fragmentChildren (chunksPos p.data mtu) 0).dropLast.length
        · have hiL : i < (p.fragmentChildren (chunksPos p.data mtu) 0).length := by
            simp only [List.length_dropLast] at hi
            omega
          have hgeteq : (((p.fragmentChildren (chunksPos p.data mtu) 0).dropLast ++
              [setFinTrue ((p.fragmentChildren (chunksPos p.data mtu) 0).getLast hLne)]).get
                ⟨i, h⟩) =
              (p.fragmentChildren (chunksPos p.data mtu) 0).get ⟨i, hiL⟩ := by
            simp only [List.get_eq_getElem]
            rw [List.getElem_append_left hi]
            exact List.getElem_dropLast _ _ _
          rw [hgeteq, hget i hiL]
          refine ⟨rfl, ?_, (create_flags _ _ _ _ _ _ _ _ _ _ _ _).2.1⟩
          exact hchunklen i (by omega)
        · have hieq : i = (p.fragmentChildren (chunksPos p.data mtu) 0).length - 1 := by
            simp only [List.length_dropLast] at hi
            rw [hcs'len] at h
            omega
          have hgeteq : (((p.fragmentChildren (chunksPos p.data mtu) 0).dropLast ++
              [setFinTrue ((p.fragmentChildren (chunksPos p.data mtu) 0).getLast hLne)]).get
                ⟨i, h⟩) =
              setFinTrue ((p.fragmentChildren (chunksPos p.data mtu) 0).getLast hLne) := by
            simp only [List.get_eq_getElem]
            rw [List.getElem_append_right (by simp only [List.length_dropLast]; omega)]
            simp [List.length_dropLast, hieq]
          rw [hgeteq, hlast]
          subst hieq
          refine ⟨?_, ?_, ?_⟩
          · exact (setFinTrue_child _ _ _ _ _ _ _ _).2.2.1
          · rw [(setFinTrue_child _ _ _ _ _ _ _ _).2.2.2.1]
            exact hchunklen _ (by omega)
          · exact (setFinTrue_child _ _ _ _ _ _ _ _).2.1
      · rw [List.countP_append]
        have hz : ((p.fragmentChildren (chunksPos p.data mtu) 0).dropLast).countP
            PTCPPacket.fin = 0 :=
          List.countP_eq_zero.mpr fun q hq => by simp [(hdlmem q hq).1]
        rw [hz]
        have hfinlast : (setFinTrue
            ((p.fragmentChildren (chunksPos p.data mtu) 0).getLast hLne)).fin = true := by
          have h2 := congrArg (fun q => (setFinTrue q).fin) hlast
          simp only at h2
          exact h2.trans (setFinTrue_child _ _ _ _ _ _ _ _).1
        simp [List.countP_cons, hfinlast]
      · intro hne
        rw [List.getLast_append _]
        have h2 := congrArg (fun q => (setFinTrue q).fin) hlast
        simp only at h2
        exact h2.trans (setFinTrue_child _ _ _ _ _ _ _ _).1
    · have hf : p.fin = false := by
        revert hfin
        cases p.fin <;> simp
      simp only [hf, Bool.false_eq_true, if_false]
      refine ⟨_, rfl, ?_, hLne, ?_, ?_, ?_⟩
      · rw [hmapdata]
        exact hflat
      · intro i h
        rw [hmapdata, hget i h]
        refine ⟨rfl, ?_, (create_flags _ _ _ _ _ _ _ _ _ _ _ _).2.1⟩
        exact hchunklen i (by omega)
      · exact List.countP_eq_zero.mpr fun q hq => by
          simp [(fragmentChildren_mem p _ 0 q hq).1]
      · intro hne
        exact (fragmentChildren_mem p _ 0 _ (List.getLast_mem hne)).1


/-- C6 (counterexample): `fragment` does not return a child list for every
non-SYN packet with `dlen >= mtu > 0` — when the `dlen` field lies about an
empty payload the chunk loop never runs and the FIN relocation references
the unbound loop variable (`NameError`), modelled as `none`. -/
theorem C6_fragment_refuted :
    c6pkt.syn = false ∧ (0 : Nat) < 1 ∧ ¬c6pkt.dlen < 1 ∧ c6pkt.fin = true ∧
    c6pkt.fragment 1 = none := by
  refine ⟨rfl, by decide, by decide, rfl, ?_⟩
  unfold PTCPPacket.fragment
  rw [if_neg (by decide), if_neg (by decide)]
  unfold iterchunks
  rw [if_neg (by decide)]
  rw [show chunksPos c6pkt.data 1 = [] from by unfold chunksPos; simp [c6pkt]]
  rfl

/-- C6 witness: the amended statement applied at a five-byte FIN+ACK packet
with mtu = 2 (fragmenting case) and mtu = 7 (pass-through case). -/
theorem C6_fragment_spec_witness :
    (c6wPkt.fragment 2).isSome = true ∧ c6wPkt.fragment 7 = some [c6wPkt] := by
  constructor
  · obtain ⟨cs, hcs, -⟩ :=
      (C6_fragment_spec c6wPkt 2 (by decide) (by decide) (by decide)).2 (by decide)
    rw [hcs]
    rfl
  · exact (C6_fragment_spec c6wPkt 7 (by decide) (by decide) (by decide)).1 (by decide)

end PTCPModel
